import Mathlib

/-!
Verification of the resource-lifecycle core of the Asteroid browser:
the tab manager (`src/core/tab.rs`), the content filter engine
(`src/core/blocker.rs`) and the memory-pressure controller
(`src/core/memory.rs`).

Embedding conventions:
* `ViewId(u64)` is embedded as `Nat` (ids come from a monotone counter).
* `Instant` / `Duration` values are embedded as `Nat` (seconds); every
  operation that reads the clock in Rust takes the current time as an
  explicit argument.
* The `BrowserEngine` capability is embedded as an oracle mapping each
  call the tab manager can make to the result the engine returns for it.
  Within one tab-manager operation every engine call is distinct, so an
  oracle per operation captures every engine behavior.
* Rust methods on `&mut self` that can fail become functions returning
  `State × Except EngineError α`: the returned state is the state of the
  receiver when the method returns, also on the error path.
* `HashMap<ViewId, Tab>` is embedded as an association list; `HashSet`
  as a list queried through `contains` / `isEmpty`.  Iteration order of
  a `HashMap` is arbitrary in Rust; the association-list order is one
  such order.
* The `f64` scroll coordinates in `SuspendedState` are embedded as `Int`;
  this core only ever writes the origin `(0, 0)`.
-/

namespace Asteroid

/-! ### Engine layer (`src/core/engine.rs`) -/

/-- `ViewId(pub u64)`: unique identifier for a browser view/tab. -/
abbrev ViewId := Nat

/-- `EngineError`: errors that can occur during engine operations. -/
inductive EngineError where
  | viewNotFound (id : ViewId)
  | initializationFailed (msg : String)
  | navigationError (msg : String)
  | scriptError (msg : String)
  | memoryError (msg : String)
  | videoError (msg : String)
  | other (msg : String)
deriving DecidableEq

/-- The engine calls the tab manager makes through the
`BrowserEngine` capability. -/
inductive EngineCall where
  | createView (id : ViewId)
  | destroyView (id : ViewId)
  | suspendView (id : ViewId)
  | resumeView (id : ViewId)
  | loadUrl (id : ViewId) (url : String)
deriving DecidableEq

/-- One behavior of the engine capability: the result of each call. -/
abbrev EngineOracle := EngineCall → Except EngineError Unit

/-- The always-succeeding engine behavior. -/
def eOK : EngineOracle := fun _ => .ok ()

/-! ### Tab data model (`src/core/tab.rs`) -/

/-- `SuspendedState`: state of a suspended tab. -/
structure SuspendedState where
  url : String
  title : String
  scroll_position : Int × Int
  suspended_at : Nat
  favicon : Option (List Nat)
deriving DecidableEq

/-- `TabState`: current state of a tab. -/
inductive TabState where
  | Active
  | Background
  | Suspended
  | Loading
  | Error
deriving DecidableEq

/-- `Tab`: a single browser tab. -/
structure Tab where
  view_id : ViewId
  state : TabState
  url : String
  title : String
  last_active : Nat
  created_at : Nat
  suspended_data : Option SuspendedState
  pinned : Bool
  favicon : Option (List Nat)
deriving DecidableEq

/-- `Tab::new` (the `Instant::now()` reads become the `now` argument). -/
def Tab.new (view_id : ViewId) (now : Nat) : Tab :=
  { view_id := view_id
    state := .Loading
    url := "about:blank"
    title := "New Tab"
    last_active := now
    created_at := now
    suspended_data := none
    pinned := false
    favicon := none }

/-- `Tab::mark_active`. -/
def Tab.mark_active (t : Tab) (now : Nat) : Tab :=
  let t := { t with last_active := now }
  if t.state = .Background then { t with state := .Active } else t

/-- `Tab::mark_background`. -/
def Tab.mark_background (t : Tab) : Tab :=
  if t.state = .Active then { t with state := .Background } else t

/-- `SuspensionConfig`. -/
structure SuspensionConfig where
  inactive_threshold : Nat
  enabled : Bool
  max_active_tabs : Nat
  suspend_pinned : Bool
deriving DecidableEq

/-- `SuspensionConfig::default`. -/
def SuspensionConfig.defaultConfig : SuspensionConfig :=
  { inactive_threshold := 300
    enabled := true
    max_active_tabs := 10
    suspend_pinned := false }

/-! Association-list operations embedding `HashMap<ViewId, Tab>`. -/

/-- `HashMap::get`. -/
def tabsGet : List (ViewId × Tab) → ViewId → Option Tab
  | [], _ => none
  | (k, v) :: rest, id => if k = id then some v else tabsGet rest id

/-- `HashMap::insert`. -/
def tabsInsert : List (ViewId × Tab) → ViewId → Tab → List (ViewId × Tab)
  | [], id, t => [(id, t)]
  | (k, v) :: rest, id, t =>
    if k = id then (id, t) :: rest else (k, v) :: tabsInsert rest id t

/-- `HashMap::remove`. -/
def tabsRemove : List (ViewId × Tab) → ViewId → List (ViewId × Tab)
  | [], _ => []
  | (k, v) :: rest, id => if k = id then rest else (k, v) :: tabsRemove rest id

/-- `HashMap::get_mut` followed by an in-place update. -/
def tabsModify : List (ViewId × Tab) → ViewId → (Tab → Tab) → List (ViewId × Tab)
  | [], _, _ => []
  | (k, v) :: rest, id, f =>
    if k = id then (k, f v) :: rest else (k, v) :: tabsModify rest id f

/-- `TabManager`. -/
structure TabManager where
  tabs : List (ViewId × Tab)
  active_tab : Option ViewId
  tab_order : List ViewId
  next_id : Nat
  suspension_config : SuspensionConfig
deriving DecidableEq

/-- `TabManager::new`. -/
def TabManager.new (config : SuspensionConfig) : TabManager :=
  { tabs := []
    active_tab := none
    tab_order := []
    next_id := 1
    suspension_config := config }

/-- `TabManager::create_tab`. -/
def TabManager.create_tab (m : TabManager) (e : EngineOracle) (now : Nat) :
    TabManager × Except EngineError ViewId :=
  let view_id : ViewId := m.next_id
  let m1 := { m with next_id := m.next_id + 1 }
  match e (.createView view_id) with
  | .error err => (m1, .error err)
  | .ok _ =>
    let m2 := { m1 with
      tabs := tabsInsert m1.tabs view_id (Tab.new view_id now)
      tab_order := m1.tab_order ++ [view_id] }
    let m3 := if m2.active_tab = none then { m2 with active_tab := some view_id } else m2
    (m3, .ok view_id)

/-- Second half of `TabManager::close_tab`: remove the record and its
entry in the display order, and reassign the active pointer to the
last remaining tab in display order if the closed tab was active. -/
def TabManager.removeClosed (m : TabManager) (view_id : ViewId) : TabManager :=
  let order := m.tab_order.filter (fun id => id ≠ view_id)
  { m with
    tabs := tabsRemove m.tabs view_id
    tab_order := order
    active_tab := if m.active_tab = some view_id then order.getLast? else m.active_tab }

/-- `TabManager::close_tab`. -/
def TabManager.close_tab (m : TabManager) (view_id : ViewId) (e : EngineOracle) :
    TabManager × Except EngineError Unit :=
  match (match tabsGet m.tabs view_id with
         | some tab => if tab.state ≠ .Suspended then e (.destroyView view_id) else .ok ()
         | none => .ok ()) with
  | .error err => (m, .error err)
  | .ok _ => (m.removeClosed view_id, .ok ())

/-- The URL captured by `resume_tab`: the suspended snapshot's URL if
present, the tab's current URL otherwise. -/
def resumeUrl (tab : Tab) : String :=
  match tab.suspended_data with
  | some data => data.url
  | none => tab.url

/-- `TabManager::resume_tab`. -/
def TabManager.resume_tab (m : TabManager) (view_id : ViewId) (e : EngineOracle) :
    TabManager × Except EngineError Unit :=
  match tabsGet m.tabs view_id with
  | none => (m, .error (.viewNotFound view_id))
  | some tab =>
    if tab.state ≠ .Suspended then (m, .ok ())
    else
      let url := resumeUrl tab
      match e (.resumeView view_id) with
      | .error err => (m, .error err)
      | .ok _ =>
        match e (.loadUrl view_id url) with
        | .error err => (m, .error err)
        | .ok _ =>
          ({ m with tabs := (tabsModify m.tabs view_id
              (fun t => { t with suspended_data := none, state := .Loading })) },
           .ok ())

/-- First step of `TabManager::switch_to_tab`: background the current
active tab. -/
def TabManager.backgroundCurrent (m : TabManager) : TabManager :=
  match m.active_tab with
  | some current_id => { m with tabs := tabsModify m.tabs current_id Tab.mark_background }
  | none => m

/-- Second step of `TabManager::switch_to_tab`: resume the target tab
if it is suspended. -/
def TabManager.resumeIfSuspended (m : TabManager) (view_id : ViewId) (e : EngineOracle) :
    TabManager × Except EngineError Unit :=
  match tabsGet m.tabs view_id with
  | some tab => if tab.state = .Suspended then m.resume_tab view_id e else (m, .ok ())
  | none => (m, .ok ())

/-- `TabManager::switch_to_tab`. -/
def TabManager.switch_to_tab (m : TabManager) (view_id : ViewId) (e : EngineOracle)
    (now : Nat) : TabManager × Except EngineError Unit :=
  match (m.backgroundCurrent).resumeIfSuspended view_id e with
  | (m2, .error err) => (m2, .error err)
  | (m2, .ok _) =>
    let m3 := { m2 with tabs := tabsModify m2.tabs view_id (fun t => t.mark_active now) }
    ({ m3 with active_tab := some view_id }, .ok ())

/-- `TabManager::suspend_tab` (the `SystemTime::now()` read becomes
the `nowEpoch` argument). -/
def TabManager.suspend_tab (m : TabManager) (view_id : ViewId) (e : EngineOracle)
    (nowEpoch : Nat) : TabManager × Except EngineError Unit :=
  match tabsGet m.tabs view_id with
  | none => (m, .error (.viewNotFound view_id))
  | some tab =>
    if tab.state = .Suspended ∨ m.active_tab = some view_id then (m, .ok ())
    else if tab.pinned = true ∧ m.suspension_config.suspend_pinned = false then (m, .ok ())
    else
      let suspended_state : SuspendedState :=
        { url := tab.url
          title := tab.title
          scroll_position := (0, 0)
          suspended_at := nowEpoch
          favicon := tab.favicon }
      match e (.suspendView view_id) with
      | .error err => (m, .error err)
      | .ok _ =>
        ({ m with tabs := (tabsModify m.tabs view_id
            (fun t => { t with suspended_data := some suspended_state, state := .Suspended })) },
         .ok ())

/-- The `for view_id in tabs_to_suspend` loops of the three sweep
operations: each per-tab failure is logged and the sweep continues. -/
def TabManager.suspendList (m : TabManager) (ids : List ViewId) (e : EngineOracle)
    (nowEpoch : Nat) : TabManager :=
  match ids with
  | [] => m
  | id :: rest =>
    match m.suspend_tab id e nowEpoch with
    | (m1, _) => m1.suspendList rest e nowEpoch

/-- `TabManager::check_suspensions` (`inactive_duration() > threshold`
becomes `now - last_active > threshold`). -/
def TabManager.check_suspensions (m : TabManager) (e : EngineOracle) (now nowEpoch : Nat) :
    TabManager :=
  if m.suspension_config.enabled = false then m
  else
    m.suspendList
      ((m.tabs.filter (fun p =>
          decide (p.2.state = TabState.Background)
          && decide (now - p.2.last_active > m.suspension_config.inactive_threshold)
          && !(decide (m.active_tab = some p.1))
          && (!p.2.pinned || m.suspension_config.suspend_pinned))).map Prod.fst)
      e nowEpoch

/-- `TabManager::suspend_all_inactive`. -/
def TabManager.suspend_all_inactive (m : TabManager) (e : EngineOracle) (nowEpoch : Nat) :
    TabManager :=
  m.suspendList
    ((m.tabs.filter (fun p =>
        !(decide (p.2.state = TabState.Suspended))
        && !(decide (m.active_tab = some p.1)))).map Prod.fst)
    e nowEpoch

/-- The candidate list built by `TabManager::suspend_oldest_inactive`
before sorting: background tabs that are not the active tab, paired
with their `last_active` timestamp. -/
def TabManager.oldestCandidates (m : TabManager) : List (ViewId × Nat) :=
  (m.tabs.filter (fun p =>
      decide (p.2.state = TabState.Background)
      && !(decide (m.active_tab = some p.1)))).map
    (fun p => (p.1, p.2.last_active))

/-- Stable insertion into a list sorted by ascending second component
(embeds the stable `sort_by_key`). -/
def insertByKey (x : ViewId × Nat) : List (ViewId × Nat) → List (ViewId × Nat)
  | [] => [x]
  | y :: ys => if x.2 ≤ y.2 then x :: y :: ys else y :: insertByKey x ys

/-- Stable sort by ascending second component (`sort_by_key`). -/
def sortByKeyAsc : List (ViewId × Nat) → List (ViewId × Nat)
  | [] => []
  | x :: xs => insertByKey x (sortByKeyAsc xs)

/-- `TabManager::suspend_oldest_inactive`. -/
def TabManager.suspend_oldest_inactive (m : TabManager) (count : Nat) (e : EngineOracle)
    (nowEpoch : Nat) : TabManager :=
  m.suspendList (((sortByKeyAsc m.oldestCandidates).take count).map Prod.fst) e nowEpoch

/-- `TabManager::active_tab()` (the accessor; the field of the same
name is `TabManager.active_tab`). -/
def TabManager.active_tab_lookup (m : TabManager) : Option Tab :=
  m.active_tab.bind (fun id => tabsGet m.tabs id)

/-- `TabManager::get_tab`. -/
def TabManager.get_tab (m : TabManager) (view_id : ViewId) : Option Tab :=
  tabsGet m.tabs view_id

/-- `TabManager::tabs_in_order`. -/
def TabManager.tabs_in_order (m : TabManager) : List Tab :=
  m.tab_order.filterMap (fun id => tabsGet m.tabs id)

/-- `TabManager::tab_count`. -/
def TabManager.tab_count (m : TabManager) : Nat := m.tabs.length

/-- `TabManager::suspended_count`. -/
def TabManager.suspended_count (m : TabManager) : Nat :=
  (m.tabs.filter (fun p => decide (p.2.state = TabState.Suspended))).length

/-- `TabManager::active_tab_id`. -/
def TabManager.active_tab_id (m : TabManager) : Option ViewId := m.active_tab

/-- `TabManager::set_pinned`. -/
def TabManager.set_pinned (m : TabManager) (view_id : ViewId) (pinned : Bool) : TabManager :=
  { m with tabs := tabsModify m.tabs view_id (fun t => { t with pinned := pinned }) }

/-- `TabManager::update_tab_url`. -/
def TabManager.update_tab_url (m : TabManager) (view_id : ViewId) (url : String) : TabManager :=
  { m with tabs := tabsModify m.tabs view_id (fun t => { t with url := url }) }

/-- `TabManager::update_tab_title`. -/
def TabManager.update_tab_title (m : TabManager) (view_id : ViewId) (title : String) :
    TabManager :=
  { m with tabs := tabsModify m.tabs view_id (fun t => { t with title := title }) }

/-- `TabManager::update_tab_favicon`. -/
def TabManager.update_tab_favicon (m : TabManager) (view_id : ViewId) (favicon : List Nat) :
    TabManager :=
  { m with tabs := tabsModify m.tabs view_id (fun t => { t with favicon := some favicon }) }

/-- `TabManager::mark_loaded`. -/
def TabManager.mark_loaded (m : TabManager) (view_id : ViewId) : TabManager :=
  { m with tabs := tabsModify m.tabs view_id (fun t =>
      if t.state = .Loading then
        if m.active_tab = some view_id then { t with state := .Active }
        else { t with state := .Background }
      else t) }

/-! ### String helpers for the content filter engine

The Rust code works on UTF-8 byte slices; the embedding works on
character lists (identical on the ASCII inputs this core handles).
All helpers are structurally recursive so that concrete runs evaluate.
-/

/-- `s.starts_with(pat)` on character lists: `leadsList pat s` is true
iff `pat` is a leading segment of `s`. -/
def leadsList : List Char → List Char → Bool
  | [], _ => true
  | _ :: _, [] => false
  | p :: ps, c :: cs => p == c && leadsList ps cs

/-- `str::find(pat)`: index of the first occurrence of `pat`. -/
def findSub (pat : List Char) : List Char → Option Nat
  | [] => if leadsList pat [] then some 0 else none
  | c :: rest =>
    if leadsList pat (c :: rest) then some 0
    else (findSub pat rest).map (· + 1)

/-- `str::contains(pat)`. -/
def strContains (s pat : String) : Bool := (findSub pat.data s.data).isSome

/-- `str::starts_with(pat)`. -/
def strStartsWith (s pat : String) : Bool := leadsList pat.data s.data

/-- `str::ends_with(pat)`. -/
def strEndsWith (s pat : String) : Bool := leadsList pat.data.reverse s.data.reverse

/-- `&s[n..]` (character-level). -/
def strDrop (s : String) (n : Nat) : String := ⟨s.data.drop n⟩

/-- `&s[..s.len() - n]` (character-level). -/
def strDropRight (s : String) (n : Nat) : String := ⟨s.data.take (s.data.length - n)⟩

/-- `str::split(c)` on a single-character separator. -/
def splitCharList (c : Char) : List Char → List (List Char)
  | [] => [[]]
  | x :: xs =>
    let r := splitCharList c xs
    if x == c then [] :: r
    else
      match r with
      | [] => [[x]]
      | g :: gs => (x :: g) :: gs

/-- `str::split(c)` as strings. -/
def splitChar (c : Char) (s : String) : List String :=
  (splitCharList c s.data).map (fun l => ⟨l⟩)

/-- `str::trim()`. -/
def strTrim (s : String) : String :=
  ⟨(((s.data.dropWhile Char.isWhitespace).reverse).dropWhile Char.isWhitespace).reverse⟩

/-- `str::to_lowercase()` (ASCII form). -/
def strToLower (s : String) : String := ⟨s.data.map Char.toLower⟩

/-- One step bound for `trim_start_matches`: the fuel is the length of
the subject, enough since each strip removes at least one character. -/
def dropRepeatedAux (pat : List Char) : Nat → List Char → List Char
  | 0, s => s
  | fuel + 1, s =>
    if pat ≠ [] ∧ leadsList pat s = true then dropRepeatedAux pat fuel (s.drop pat.length)
    else s

/-- `str::trim_start_matches(pat)`: repeatedly strips the leading `pat`. -/
def trimStartMatches (s pat : String) : String :=
  ⟨dropRepeatedAux pat.data s.data.length s.data⟩

/-- `str::rfind(c)`: index of the last occurrence of the character. -/
def rfindChar (c : Char) (s : List Char) : Option Nat :=
  match s.reverse.findIdx? (· == c) with
  | some i => some (s.length - 1 - i)
  | none => none

/-! ### Content filter engine (`src/core/blocker.rs`) -/

/-- `ResourceType`. -/
inductive ResourceType where
  | Script
  | Image
  | Stylesheet
  | Font
  | Media
  | XmlHttpRequest
  | SubDocument
  | WebSocket
  | Other
deriving DecidableEq

/-- `ResourceType::from_str`. -/
def ResourceType.from_str (s : String) : ResourceType :=
  let l := strToLower s
  if l = "script" then .Script
  else if l = "image" ∨ l = "img" then .Image
  else if l = "stylesheet" ∨ l = "css" then .Stylesheet
  else if l = "font" then .Font
  else if l = "media" ∨ l = "video" ∨ l = "audio" then .Media
  else if l = "xmlhttprequest" ∨ l = "xhr" ∨ l = "fetch" then .XmlHttpRequest
  else if l = "subdocument" ∨ l = "iframe" then .SubDocument
  else if l = "websocket" ∨ l = "ws" then .WebSocket
  else .Other

/-- `FilterRule` (the `HashSet` fields are lists queried through
`contains` / `isEmpty`). -/
structure FilterRule where
  pattern : String
  is_block : Bool
  resource_types : List ResourceType
  domains : List String
  third_party_only : Bool
deriving DecidableEq

/-- `BlockResult`. -/
structure BlockResult where
  matched : Bool
  matching_rule : Option String
  is_exception : Bool
deriving DecidableEq

/-- `BlockerStats` (`u64` counters embedded as `Nat`). -/
structure BlockerStats where
  total_checked : Nat
  total_blocked : Nat
  bytes_saved : Nat
  filter_count : Nat
deriving DecidableEq

/-- `BlockerStats::default`. -/
def BlockerStats.defaultStats : BlockerStats :=
  { total_checked := 0, total_blocked := 0, bytes_saved := 0, filter_count := 0 }

/-- `ContentBlocker`. -/
structure ContentBlocker where
  block_rules : List FilterRule
  exception_rules : List FilterRule
  domain_blocklist : List String
  stats : BlockerStats
  enabled : Bool
deriving DecidableEq

/-- The built-in domain blocklist loaded by `load_builtin_domains`. -/
def builtinDomains : List String :=
  [ "doubleclick.net"
  , "googlesyndication.com"
  , "googleadservices.com"
  , "google-analytics.com"
  , "googletagmanager.com"
  , "facebook.net"
  , "facebook.com/tr"
  , "analytics.google.com"
  , "adservice.google.com"
  , "pagead2.googlesyndication.com"
  , "amazon-adsystem.com"
  , "ads.yahoo.com"
  , "ad.doubleclick.net"
  , "stats.wp.com"
  , "pixel.wp.com"
  , "scorecardresearch.com"
  , "quantserve.com"
  , "outbrain.com"
  , "taboola.com"
  , "criteo.com"
  , "rubiconproject.com"
  , "pubmatic.com"
  , "openx.net"
  , "casalemedia.com"
  , "adnxs.com"
  , "moatads.com"
  , "serving-sys.com"
  , "sentry-cdn.com"
  , "hotjar.com"
  , "mouseflow.com"
  , "fullstory.com"
  , "crazyegg.com"
  , "mixpanel.com"
  , "amplitude.com"
  , "segment.io"
  , "segment.com"
  , "optimizely.com"
  , "newrelic.com"
  , "nr-data.net" ]

/-- `ContentBlocker::new`. -/
def ContentBlocker.new : ContentBlocker :=
  { block_rules := []
    exception_rules := []
    domain_blocklist := builtinDomains
    stats := BlockerStats.defaultStats
    enabled := true }

/-- One `$`-option of a rule (`third-party`, resource types,
`domain=a|b|~c`; a leading `~` is stripped from each domain). -/
def applyOpt (rule : FilterRule) (rawOpt : String) : FilterRule :=
  let opt := strTrim rawOpt
  if opt = "third-party" then { rule with third_party_only := true }
  else if opt = "script" then { rule with resource_types := rule.resource_types ++ [.Script] }
  else if opt = "image" then { rule with resource_types := rule.resource_types ++ [.Image] }
  else if opt = "stylesheet" then
    { rule with resource_types := rule.resource_types ++ [.Stylesheet] }
  else if opt = "font" then { rule with resource_types := rule.resource_types ++ [.Font] }
  else if opt = "media" then { rule with resource_types := rule.resource_types ++ [.Media] }
  else if opt = "xmlhttprequest" then
    { rule with resource_types := rule.resource_types ++ [.XmlHttpRequest] }
  else if opt = "subdocument" then
    { rule with resource_types := rule.resource_types ++ [.SubDocument] }
  else if opt = "websocket" then
    { rule with resource_types := rule.resource_types ++ [.WebSocket] }
  else if strStartsWith opt "domain=" then
    { rule with domains := rule.domains ++
        (splitChar '|' (strDrop opt 7)).map (fun d => ⟨d.data.dropWhile (· == '~')⟩) }
  else rule

/-- `ContentBlocker::parse_rule`. -/
def parse_rule (pattern : String) (is_block : Bool) : Option FilterRule :=
  if strContains pattern "##" || strContains pattern "#@#" then none
  else
    let po : String × Option String :=
      match rfindChar '$' pattern.data with
      | some idx => (⟨pattern.data.take idx⟩, some ⟨pattern.data.drop (idx + 1)⟩)
      | none => (pattern, none)
    let rule : FilterRule :=
      { pattern := po.1
        is_block := is_block
        resource_types := []
        domains := []
        third_party_only := false }
    some (match po.2 with
      | some opts => (splitChar ',' opts).foldl applyOpt rule
      | none => rule)

/-- One line of `ContentBlocker::add_filter_list`. -/
def processLine (b : ContentBlocker) (rawLine : String) : ContentBlocker :=
  let line := strTrim rawLine
  if line.isEmpty || strStartsWith line "!" || strStartsWith line "[" then b
  else if strStartsWith line "@@" then
    match parse_rule (strDrop line 2) false with
    | some rule => { b with exception_rules := b.exception_rules ++ [rule] }
    | none => b
  else
    match parse_rule line true with
    | some rule => { b with block_rules := b.block_rules ++ [rule] }
    | none => b

/-- `ContentBlocker::add_filter_list`. -/
def ContentBlocker.add_filter_list (b : ContentBlocker) (content : String) : ContentBlocker :=
  let b1 := (splitChar '\n' content).foldl processLine b
  { b1 with stats := { b1.stats with
      filter_count := b1.block_rules.length + b1.exception_rules.length } }

/-- `extract_domain`. -/
def extract_domain (url : String) : Option String :=
  let u := trimStartMatches (trimStartMatches url "https://") "http://"
  match splitChar '/' u with
  | [] => none
  | d :: _ =>
    some (match splitChar ':' d with
      | [] => d
      | c :: _ => c)

/-- The scan loop of `wildcard_match`: `i` is the fragment index,
`pos` the current scan position in the text. -/
def wildcardGo (anchoredFree : Bool) (parts : List String) (i : Nat) (text : List Char)
    (pos : Nat) : Bool :=
  match parts with
  | [] => true
  | p :: rest =>
    if p.isEmpty then wildcardGo anchoredFree rest (i + 1) text pos
    else
      match findSub p.data (text.drop pos) with
      | some found =>
        if i = 0 ∧ found ≠ 0 ∧ anchoredFree = false then false
        else wildcardGo anchoredFree rest (i + 1) text (pos + found + p.length)
      | none => false

/-- `wildcard_match`. -/
def wildcard_match (pattern text : String) : Bool :=
  wildcardGo (strStartsWith pattern "*") (splitChar '*' pattern) 0 text.data 0

/-- `ContentBlocker::rule_matches`.  (On the pathological pattern
`"|"` the Rust source panics on the slice `[1..0]`; the embedding
returns the comparison with the empty interior.  No rule in this
development has that pattern.) -/
def rule_matches (rule : FilterRule) (url : String) (_source_url : String)
    (resource_type : ResourceType) : Bool :=
  if !rule.resource_types.isEmpty && !(rule.resource_types.contains resource_type) then false
  else
    let pattern := rule.pattern
    if strStartsWith pattern "||" then
      let domain_pattern := strDrop pattern 2
      match extract_domain url with
      | some domain => strContains domain domain_pattern || strContains url domain_pattern
      | none => false
    else if strStartsWith pattern "|" && strEndsWith pattern "|" then
      url == strDropRight (strDrop pattern 1) 1
    else if strContains pattern "*" then
      wildcard_match pattern url
    else
      strContains url pattern

/-- `estimate_resource_size`. -/
def estimate_resource_size (resource_type : String) : Nat :=
  let l := strToLower resource_type
  if l = "script" then 50000
  else if l = "image" ∨ l = "img" then 30000
  else if l = "stylesheet" ∨ l = "css" then 20000
  else if l = "font" then 40000
  else if l = "media" ∨ l = "video" then 500000
  else if l = "xmlhttprequest" ∨ l = "xhr" then 10000
  else 15000

/-- `ContentBlocker::should_block`. -/
def ContentBlocker.should_block (b : ContentBlocker) (url source_url resource_type : String) :
    BlockResult × ContentBlocker :=
  let b1 := { b with stats := { b.stats with total_checked := b.stats.total_checked + 1 } }
  if b1.enabled = false then
    ({ matched := false, matching_rule := none, is_exception := false }, b1)
  else
    let fast : Option String :=
      match extract_domain url with
      | some domain => if b1.domain_blocklist.contains domain then some domain else none
      | none => none
    match fast with
    | some domain =>
      ({ matched := true, matching_rule := some ("domain:" ++ domain), is_exception := false },
       { b1 with stats := { b1.stats with
           total_blocked := b1.stats.total_blocked + 1
           bytes_saved := b1.stats.bytes_saved + estimate_resource_size resource_type } })
    | none =>
      let res_type := ResourceType.from_str resource_type
      match b1.exception_rules.find? (fun r => rule_matches r url source_url res_type) with
      | some rule =>
        ({ matched := false, matching_rule := some rule.pattern, is_exception := true }, b1)
      | none =>
        match b1.block_rules.find? (fun r => rule_matches r url source_url res_type) with
        | some rule =>
          ({ matched := true, matching_rule := some rule.pattern, is_exception := false },
           { b1 with stats := { b1.stats with
               total_blocked := b1.stats.total_blocked + 1
               bytes_saved := b1.stats.bytes_saved + estimate_resource_size resource_type } })
        | none =>
          ({ matched := false, matching_rule := none, is_exception := false }, b1)

/-- `ContentBlocker::set_enabled`. -/
def ContentBlocker.set_enabled (b : ContentBlocker) (enabled : Bool) : ContentBlocker :=
  { b with enabled := enabled }

/-! ### Memory pressure controller (`src/core/memory.rs`) -/

/-- `MemoryPressure`. -/
inductive MemoryPressure where
  | Normal
  | Low
  | Critical
deriving DecidableEq

/-- `MemoryMonitorConfig` (durations and byte counts as `Nat`). -/
structure MemoryMonitorConfig where
  check_interval : Nat
  low_threshold_bytes : Nat
  critical_threshold_bytes : Nat
  enabled : Bool
deriving DecidableEq

/-- `MemoryMonitorConfig::default`. -/
def MemoryMonitorConfig.defaultConfig : MemoryMonitorConfig :=
  { check_interval := 10
    low_threshold_bytes := 512 * 1024 * 1024
    critical_threshold_bytes := 256 * 1024 * 1024
    enabled := true }

/-- `assess_memory_pressure`, with the `/proc/meminfo` sample made
explicit: in the source the function reads `get_system_memory()` and
then classifies `mem_info.available_bytes` against the thresholds;
the embedding takes that `available_bytes` value as an argument. -/
def assess_memory_pressure (available_bytes : Nat) (config : MemoryMonitorConfig) :
    MemoryPressure :=
  if available_bytes < config.critical_threshold_bytes then .Critical
  else if available_bytes < config.low_threshold_bytes then .Low
  else .Normal

/-! ### Association-list lemmas -/

theorem tabsGet_mem {l : List (ViewId × Tab)} {id : ViewId} {t : Tab}
    (h : tabsGet l id = some t) : (id, t) ∈ l := by
  induction l with
  | nil => simp [tabsGet] at h
  | cons p rest ih =>
    obtain ⟨k, v⟩ := p
    by_cases hk : k = id
    · subst hk
      simp [tabsGet] at h
      subst h
      exact List.mem_cons_self _ _
    · simp [tabsGet, hk] at h
      exact List.mem_cons_of_mem _ (ih h)

theorem mem_tabsInsert {l : List (ViewId × Tab)} {id : ViewId} {t : Tab}
    {p : ViewId × Tab} (h : p ∈ tabsInsert l id t) : p = (id, t) ∨ p ∈ l := by
  induction l with
  | nil =>
    simp [tabsInsert] at h
    exact Or.inl h
  | cons q rest ih =>
    obtain ⟨k, v⟩ := q
    by_cases hk : k = id
    · subst hk
      simp [tabsInsert] at h
      rcases h with h | h
      · exact Or.inl h
      · exact Or.inr (List.mem_cons_of_mem _ h)
    · simp [tabsInsert, hk] at h
      rcases h with h | h
      · exact Or.inr (by simp [h])
      · rcases ih h with h' | h'
        · exact Or.inl h'
        · exact Or.inr (List.mem_cons_of_mem _ h')

theorem mem_tabsRemove {l : List (ViewId × Tab)} {id : ViewId}
    {p : ViewId × Tab} (h : p ∈ tabsRemove l id) : p ∈ l := by
  induction l with
  | nil => simp [tabsRemove] at h
  | cons q rest ih =>
    obtain ⟨k, v⟩ := q
    by_cases hk : k = id
    · subst hk
      simp [tabsRemove] at h
      exact List.mem_cons_of_mem _ h
    · simp [tabsRemove, hk] at h
      rcases h with h | h
      · simp [h]
      · exact List.mem_cons_of_mem _ (ih h)

theorem mem_tabsModify {l : List (ViewId × Tab)} {id : ViewId} {f : Tab → Tab}
    {p : ViewId × Tab} (h : p ∈ tabsModify l id f) :
    p ∈ l ∨ ∃ q ∈ l, p = (q.1, f q.2) := by
  induction l with
  | nil => simp [tabsModify] at h
  | cons q rest ih =>
    obtain ⟨k, v⟩ := q
    by_cases hk : k = id
    · subst hk
      simp [tabsModify] at h
      rcases h with h | h
      · exact Or.inr ⟨(k, v), List.mem_cons_self _ _, by simp [h]⟩
      · exact Or.inl (List.mem_cons_of_mem _ h)
    · simp [tabsModify, hk] at h
      rcases h with h | h
      · exact Or.inl (by simp [h])
      · rcases ih h with h' | ⟨q', hq', hp⟩
        · exact Or.inl (List.mem_cons_of_mem _ h')
        · exact Or.inr ⟨q', List.mem_cons_of_mem _ hq', hp⟩

theorem tabsGet_tabsInsert_self (l : List (ViewId × Tab)) (id : ViewId) (t : Tab) :
    tabsGet (tabsInsert l id t) id = some t := by
  induction l with
  | nil => simp [tabsInsert, tabsGet]
  | cons q rest ih =>
    obtain ⟨k, v⟩ := q
    by_cases hk : k = id
    · subst hk
      simp [tabsInsert, tabsGet]
    · simp [tabsInsert, tabsGet, hk, ih]

theorem tabsGet_tabsInsert_ne (l : List (ViewId × Tab)) {id j : ViewId} (t : Tab)
    (h : j ≠ id) : tabsGet (tabsInsert l id t) j = tabsGet l j := by
  induction l with
  | nil => simp [tabsInsert, tabsGet, Ne.symm h]
  | cons q rest ih =>
    obtain ⟨k, v⟩ := q
    by_cases hk : k = id
    · subst hk
      simp [tabsInsert, tabsGet, Ne.symm h]
    · by_cases hkj : k = j
      · subst hkj
        simp [tabsInsert, tabsGet, hk]
      · simp [tabsInsert, tabsGet, hk, hkj, ih]

theorem tabsGet_tabsModify_self (l : List (ViewId × Tab)) (id : ViewId) (f : Tab → Tab) :
    tabsGet (tabsModify l id f) id = (tabsGet l id).map f := by
  induction l with
  | nil => simp [tabsModify, tabsGet]
  | cons q rest ih =>
    obtain ⟨k, v⟩ := q
    by_cases hk : k = id
    · subst hk
      simp [tabsModify, tabsGet]
    · simp [tabsModify, tabsGet, hk, ih]

theorem tabsGet_tabsModify_ne (l : List (ViewId × Tab)) {id j : ViewId} (f : Tab → Tab)
    (h : j ≠ id) : tabsGet (tabsModify l id f) j = tabsGet l j := by
  induction l with
  | nil => simp [tabsModify, tabsGet]
  | cons q rest ih =>
    obtain ⟨k, v⟩ := q
    by_cases hk : k = id
    · subst hk
      simp [tabsModify, tabsGet, Ne.symm h, ih]
    · by_cases hkj : k = j
      · subst hkj
        simp [tabsModify, tabsGet, hk]
      · simp [tabsModify, tabsGet, hk, hkj, ih]

theorem tabsGet_tabsModify_none (l : List (ViewId × Tab)) {id : ViewId} (k : ViewId)
    (f : Tab → Tab) (h : tabsGet l id = none) :
    tabsGet (tabsModify l k f) id = none := by
  by_cases hk : id = k
  · subst hk
    simp [tabsGet_tabsModify_self, h]
  · simp [tabsGet_tabsModify_ne _ _ hk, h]

/-! ### Tab-level facts -/

/-- The per-tab shape of the suspended-data invariant. -/
def tabOk (t : Tab) : Prop := t.state = TabState.Suspended ↔ t.suspended_data.isSome = true

theorem tabOk_new (id : ViewId) (now : Nat) : tabOk (Tab.new id now) := by
  simp [tabOk, Tab.new]

theorem tabOk_mark_active {t : Tab} (h : tabOk t) (now : Nat) : tabOk (t.mark_active now) := by
  unfold Tab.mark_active
  by_cases hs : t.state = TabState.Background
  · simp only [tabOk] at h ⊢
    simp [hs] at h ⊢
    simpa [hs] using h
  · simpa [tabOk, hs] using h

theorem tabOk_mark_background {t : Tab} (h : tabOk t) : tabOk t.mark_background := by
  unfold Tab.mark_background
  by_cases hs : t.state = TabState.Active
  · simp only [tabOk] at h ⊢
    simp [hs] at h ⊢
    simpa [hs] using h
  · simpa [tabOk, hs] using h

theorem state_mark_active_ne {t : Tab} (h : t.state ≠ TabState.Suspended) (now : Nat) :
    (t.mark_active now).state ≠ TabState.Suspended := by
  unfold Tab.mark_active
  by_cases hs : t.state = TabState.Background <;> simp [hs, h]

theorem state_mark_background_ne {t : Tab} (h : t.state ≠ TabState.Suspended) :
    t.mark_background.state ≠ TabState.Suspended := by
  unfold Tab.mark_background
  by_cases hs : t.state = TabState.Active <;> simp [hs, h]

theorem tabsGet_tabsRemove_ne (l : List (ViewId × Tab)) {id j : ViewId}
    (h : j ≠ id) : tabsGet (tabsRemove l id) j = tabsGet l j := by
  induction l with
  | nil => simp [tabsRemove]
  | cons q rest ih =>
    obtain ⟨k, v⟩ := q
    by_cases hk : k = id
    · subst hk
      simp [tabsRemove, tabsGet, Ne.symm h]
    · by_cases hkj : k = j
      · subst hkj
        simp [tabsRemove, tabsGet, hk]
      · simp [tabsRemove, tabsGet, hk, hkj, ih]

theorem tabsGet_eq_none_of_not_mem_keys {l : List (ViewId × Tab)} {id : ViewId}
    (h : id ∉ l.map Prod.fst) : tabsGet l id = none := by
  induction l with
  | nil => simp [tabsGet]
  | cons q rest ih =>
    obtain ⟨k, v⟩ := q
    simp only [List.map_cons, List.mem_cons] at h
    push_neg at h
    simp only [tabsGet, if_neg (Ne.symm h.1)]
    exact ih h.2

theorem tabsGet_tabsRemove_self {l : List (ViewId × Tab)} {id : ViewId}
    (h : (l.map Prod.fst).Nodup) : tabsGet (tabsRemove l id) id = none := by
  induction l with
  | nil => simp [tabsRemove, tabsGet]
  | cons q rest ih =>
    obtain ⟨k, v⟩ := q
    simp only [List.map_cons, List.nodup_cons] at h
    by_cases hk : k = id
    · subst hk
      simp only [tabsRemove, if_pos rfl]
      exact tabsGet_eq_none_of_not_mem_keys h.1
    · simp only [tabsRemove, if_neg hk, tabsGet, if_neg hk]
      exact ih h.2

/-! ### Behavioral case analyses of the tab operations -/

theorem suspend_tab_cases (m : TabManager) (id : ViewId) (e : EngineOracle) (nowEpoch : Nat) :
    (m.suspend_tab id e nowEpoch).1 = m ∨
    (m.active_tab ≠ some id ∧ ∃ s, (m.suspend_tab id e nowEpoch).1 =
      { m with tabs := (tabsModify m.tabs id
          (fun tb => { tb with suspended_data := some s, state := TabState.Suspended })) }) := by
  unfold TabManager.suspend_tab
  cases h : tabsGet m.tabs id with
  | none => exact Or.inl rfl
  | some tab =>
    by_cases h1 : tab.state = TabState.Suspended ∨ m.active_tab = some id
    · simp [h1]
    · by_cases h2 : tab.pinned = true ∧ m.suspension_config.suspend_pinned = false
      · simp [h1, h2]
      · cases he : e (.suspendView id) with
        | error err => simp [h1, h2, he]
        | ok u =>
          right
          refine ⟨fun hc => h1 (Or.inr hc),
            ⟨{ url := tab.url, title := tab.title, scroll_position := (0, 0),
               suspended_at := nowEpoch, favicon := tab.favicon }, ?_⟩⟩
          simp [h1, h2, he]

theorem resume_tab_cases (m : TabManager) (id : ViewId) (e : EngineOracle) :
    (m.resume_tab id e).1 = m ∨
    (m.resume_tab id e).1 = { m with tabs := (tabsModify m.tabs id
        (fun t => { t with suspended_data := none, state := TabState.Loading })) } := by
  unfold TabManager.resume_tab
  cases h : tabsGet m.tabs id with
  | none => exact Or.inl rfl
  | some tab =>
    by_cases h1 : tab.state ≠ TabState.Suspended
    · simp [h1]
    · cases he : e (.resumeView id) with
      | error err => simp [h1, he]
      | ok u =>
        cases hl : e (.loadUrl id (resumeUrl tab)) with
        | error err => simp [h1, he, hl]
        | ok u' => simp [h1, he, hl]

theorem close_tab_cases (m : TabManager) (id : ViewId) (e : EngineOracle) :
    (m.close_tab id e).1 = m ∨ (m.close_tab id e).1 = m.removeClosed id := by
  unfold TabManager.close_tab
  cases h : tabsGet m.tabs id with
  | none => simp
  | some tab =>
    by_cases h1 : tab.state ≠ TabState.Suspended
    · cases he : e (.destroyView id) with
      | error err => simp [h1, he]
      | ok u => simp [h1, he]
    · simp [h1]

theorem close_tab_spec (m : TabManager) (id : ViewId) (e : EngineOracle) :
    m.close_tab id e = (m.removeClosed id, .ok ()) ∨
    ∃ err, m.close_tab id e = (m, .error err) ∧
      ∃ tab, tabsGet m.tabs id = some tab ∧ tab.state ≠ TabState.Suspended ∧
        e (.destroyView id) = .error err := by
  unfold TabManager.close_tab
  cases h : tabsGet m.tabs id with
  | none => exact Or.inl rfl
  | some tab =>
    by_cases h1 : tab.state ≠ TabState.Suspended
    · cases he : e (.destroyView id) with
      | error err =>
        right
        refine ⟨err, ?_, tab, rfl, h1, rfl⟩
        simp [h1, he]
      | ok u =>
        left
        simp [h1, he]
    · left
      simp [h1]

theorem suspend_tab_active (m : TabManager) (id : ViewId) (e : EngineOracle)
    (nowEpoch : Nat) : (m.suspend_tab id e nowEpoch).1.active_tab = m.active_tab := by
  rcases suspend_tab_cases m id e nowEpoch with h | ⟨_, s, h⟩ <;> rw [h]

theorem suspend_tab_config (m : TabManager) (id : ViewId) (e : EngineOracle)
    (nowEpoch : Nat) :
    (m.suspend_tab id e nowEpoch).1.suspension_config = m.suspension_config := by
  rcases suspend_tab_cases m id e nowEpoch with h | ⟨_, s, h⟩ <;> rw [h]

theorem suspend_tab_get_ne (m : TabManager) {id j : ViewId} (e : EngineOracle)
    (nowEpoch : Nat) (h : j ≠ id) :
    tabsGet (m.suspend_tab id e nowEpoch).1.tabs j = tabsGet m.tabs j := by
  rcases suspend_tab_cases m id e nowEpoch with hc | ⟨_, s, hc⟩ <;> rw [hc]
  exact tabsGet_tabsModify_ne _ _ h

theorem suspend_tab_suspended_noop (m : TabManager) {id : ViewId} {tab : Tab}
    (e : EngineOracle) (nowEpoch : Nat) (h : tabsGet m.tabs id = some tab)
    (hs : tab.state = TabState.Suspended) : m.suspend_tab id e nowEpoch = (m, .ok ()) := by
  unfold TabManager.suspend_tab
  rw [h]
  simp [hs]

theorem suspend_tab_eligible_get (m : TabManager) {id : ViewId} {tab : Tab}
    (e : EngineOracle) (nowEpoch : Nat) (h : tabsGet m.tabs id = some tab)
    (hs : tab.state ≠ TabState.Suspended) (ha : m.active_tab ≠ some id)
    (hp : ¬(tab.pinned = true ∧ m.suspension_config.suspend_pinned = false))
    (he : e (.suspendView id) = .ok ()) :
    ∃ s, tabsGet (m.suspend_tab id e nowEpoch).1.tabs id =
      some { tab with suspended_data := some s, state := TabState.Suspended } := by
  unfold TabManager.suspend_tab
  rw [h]
  have h1 : ¬(tab.state = TabState.Suspended ∨ m.active_tab = some id) := by
    intro hc
    rcases hc with hc | hc
    · exact hs hc
    · exact ha hc
  refine ⟨{ url := tab.url, title := tab.title, scroll_position := (0, 0),
            suspended_at := nowEpoch, favicon := tab.favicon }, ?_⟩
  simp only [h1, hp, if_false, he]
  rw [tabsGet_tabsModify_self, h]
  rfl

theorem create_tab_cases (m : TabManager) (e : EngineOracle) (now : Nat) :
    (m.create_tab e now).1 = { m with next_id := m.next_id + 1 } ∨
    (m.create_tab e now).1 = { m with
      next_id := m.next_id + 1
      tabs := tabsInsert m.tabs m.next_id (Tab.new m.next_id now)
      tab_order := m.tab_order ++ [m.next_id]
      active_tab := if m.active_tab = none then some m.next_id else m.active_tab } := by
  unfold TabManager.create_tab
  cases he : e (.createView m.next_id) with
  | error err => simp [he]
  | ok u =>
    right
    by_cases ha : m.active_tab = none <;> simp [he, ha]

theorem resume_tab_eq_none (m : TabManager) (id : ViewId) (e : EngineOracle)
    (hg : tabsGet m.tabs id = none) :
    m.resume_tab id e = (m, .error (.viewNotFound id)) := by
  unfold TabManager.resume_tab
  rw [hg]

theorem resume_tab_eq_notsusp (m : TabManager) (id : ViewId) (e : EngineOracle) {tab0 : Tab}
    (hg : tabsGet m.tabs id = some tab0) (h1 : tab0.state ≠ TabState.Suspended) :
    m.resume_tab id e = (m, .ok ()) := by
  unfold TabManager.resume_tab
  rw [hg]
  simp [h1]

theorem resume_tab_eq_err1 (m : TabManager) (id : ViewId) (e : EngineOracle) {tab0 : Tab}
    {err : EngineError} (hg : tabsGet m.tabs id = some tab0)
    (h1 : tab0.state = TabState.Suspended) (he : e (.resumeView id) = .error err) :
    m.resume_tab id e = (m, .error err) := by
  unfold TabManager.resume_tab
  rw [hg]
  simp [h1, he]

theorem resume_tab_eq_err2 (m : TabManager) (id : ViewId) (e : EngineOracle) {tab0 : Tab}
    {err : EngineError} (hg : tabsGet m.tabs id = some tab0)
    (h1 : tab0.state = TabState.Suspended) (he : e (.resumeView id) = .ok ())
    (hl : e (.loadUrl id (resumeUrl tab0)) = .error err) :
    m.resume_tab id e = (m, .error err) := by
  unfold TabManager.resume_tab
  rw [hg]
  simp [h1, he, hl]

theorem resume_tab_eq_ok (m : TabManager) (id : ViewId) (e : EngineOracle) {tab0 : Tab}
    (hg : tabsGet m.tabs id = some tab0) (h1 : tab0.state = TabState.Suspended)
    (he : e (.resumeView id) = .ok ()) (hl : e (.loadUrl id (resumeUrl tab0)) = .ok ()) :
    m.resume_tab id e = ({ m with tabs := (tabsModify m.tabs id
      (fun t => { t with suspended_data := none, state := TabState.Loading })) }, .ok ()) := by
  unfold TabManager.resume_tab
  rw [hg]
  simp [h1, he, hl]

theorem resume_tab_ok_target (m : TabManager) (id : ViewId) (e : EngineOracle) (u : Unit)
    (hok : (m.resume_tab id e).2 = .ok u) :
    ∀ tab, tabsGet (m.resume_tab id e).1.tabs id = some tab →
      tab.state ≠ TabState.Suspended := by
  cases hg : tabsGet m.tabs id with
  | none =>
    rw [resume_tab_eq_none m id e hg] at hok
    exact Except.noConfusion hok
  | some tab0 =>
    by_cases h1 : tab0.state = TabState.Suspended
    · cases he : e (.resumeView id) with
      | error err =>
        rw [resume_tab_eq_err1 m id e hg h1 he] at hok
        exact Except.noConfusion hok
      | ok u1 =>
        have he' : e (.resumeView id) = .ok () := he
        cases hl : e (.loadUrl id (resumeUrl tab0)) with
        | error err =>
          rw [resume_tab_eq_err2 m id e hg h1 he' hl] at hok
          exact Except.noConfusion hok
        | ok u2 =>
          have hl' : e (.loadUrl id (resumeUrl tab0)) = .ok () := hl
          intro tab htab
          rw [resume_tab_eq_ok m id e hg h1 he' hl'] at htab
          simp only [] at htab
          rw [tabsGet_tabsModify_self, hg] at htab
          cases htab
          simp
    · intro tab htab
      rw [resume_tab_eq_notsusp m id e hg h1] at htab
      simp only [] at htab
      rw [hg] at htab
      cases htab
      exact h1

/-! ### The suspended-data invariant (claims C6, C7) -/

/-- `state = Suspended ⟺ suspended_data.is_some()` for every tab record. -/
def TabsOk (m : TabManager) : Prop := ∀ p ∈ m.tabs, tabOk p.2

/-- The active tab, when it exists, is not suspended. -/
def ActiveOk (m : TabManager) : Prop :=
  ∀ x tab, m.active_tab = some x → tabsGet m.tabs x = some tab →
    tab.state ≠ TabState.Suspended

theorem tabsOk_modify_of {m : TabManager} (h : TabsOk m) {id : ViewId} {f : Tab → Tab}
    (hf : ∀ t, tabOk t → tabOk (f t)) : ∀ p ∈ tabsModify m.tabs id f, tabOk p.2 := by
  intro p hp
  rcases mem_tabsModify hp with hp' | ⟨q, hq, rfl⟩
  · exact h p hp'
  · exact hf _ (h q hq)

theorem tabsOk_create (m : TabManager) (e : EngineOracle) (now : Nat) (h : TabsOk m) :
    TabsOk (m.create_tab e now).1 := by
  rcases create_tab_cases m e now with hc | hc <;> rw [hc]
  · exact h
  · intro p hp
    rcases mem_tabsInsert hp with rfl | hmem
    · exact tabOk_new _ _
    · exact h p hmem

theorem tabsOk_close (m : TabManager) (id : ViewId) (e : EngineOracle) (h : TabsOk m) :
    TabsOk (m.close_tab id e).1 := by
  rcases close_tab_cases m id e with hc | hc <;> rw [hc]
  · exact h
  · intro p hp
    exact h p (mem_tabsRemove hp)

theorem tabsOk_suspend (m : TabManager) (id : ViewId) (e : EngineOracle) (nowEpoch : Nat)
    (h : TabsOk m) : TabsOk (m.suspend_tab id e nowEpoch).1 := by
  rcases suspend_tab_cases m id e nowEpoch with hc | ⟨_, s, hc⟩ <;> rw [hc]
  · exact h
  · exact tabsOk_modify_of h (fun t _ => by simp [tabOk])

theorem tabsOk_resume (m : TabManager) (id : ViewId) (e : EngineOracle) (h : TabsOk m) :
    TabsOk (m.resume_tab id e).1 := by
  rcases resume_tab_cases m id e with hc | hc <;> rw [hc]
  · exact h
  · exact tabsOk_modify_of h (fun t _ => by simp [tabOk])

theorem tabsOk_backgroundCurrent (m : TabManager) (h : TabsOk m) :
    TabsOk m.backgroundCurrent := by
  unfold TabManager.backgroundCurrent
  cases m.active_tab with
  | none => exact h
  | some cur => exact tabsOk_modify_of h (fun t ht => tabOk_mark_background ht)

theorem tabsOk_resumeIfSuspended (m : TabManager) (id : ViewId) (e : EngineOracle)
    (h : TabsOk m) : TabsOk (m.resumeIfSuspended id e).1 := by
  unfold TabManager.resumeIfSuspended
  cases tabsGet m.tabs id with
  | none => exact h
  | some tab =>
    by_cases hs : tab.state = TabState.Suspended
    · simp only [hs, if_true]
      exact tabsOk_resume m id e h
    · simp only [hs, if_false]
      exact h

theorem tabsOk_switch (m : TabManager) (id : ViewId) (e : EngineOracle) (now : Nat)
    (h : TabsOk m) : TabsOk (m.switch_to_tab id e now).1 := by
  unfold TabManager.switch_to_tab
  have h2 : TabsOk ((m.backgroundCurrent).resumeIfSuspended id e).1 :=
    tabsOk_resumeIfSuspended _ id e (tabsOk_backgroundCurrent m h)
  rcases hr : (m.backgroundCurrent).resumeIfSuspended id e with ⟨m2, r⟩
  rw [hr] at h2
  cases r with
  | error err => exact h2
  | ok u => exact tabsOk_modify_of h2 (fun t ht => tabOk_mark_active ht now)

theorem tabsOk_suspendList (ids : List ViewId) (m : TabManager) (e : EngineOracle)
    (nowEpoch : Nat) (h : TabsOk m) : TabsOk (m.suspendList ids e nowEpoch) := by
  induction ids generalizing m with
  | nil => exact h
  | cons id rest ih => exact ih _ (tabsOk_suspend m id e nowEpoch h)

theorem tabsOk_check_suspensions (m : TabManager) (e : EngineOracle) (now nowEpoch : Nat)
    (h : TabsOk m) : TabsOk (m.check_suspensions e now nowEpoch) := by
  unfold TabManager.check_suspensions
  by_cases hc : m.suspension_config.enabled = false
  · simp only [hc, if_true]
    exact h
  · simp only [hc, if_false]
    exact tabsOk_suspendList _ m e nowEpoch h

theorem tabsOk_suspend_all (m : TabManager) (e : EngineOracle) (nowEpoch : Nat)
    (h : TabsOk m) : TabsOk (m.suspend_all_inactive e nowEpoch) :=
  tabsOk_suspendList _ m e nowEpoch h

theorem tabsOk_suspend_oldest (m : TabManager) (count : Nat) (e : EngineOracle)
    (nowEpoch : Nat) (h : TabsOk m) : TabsOk (m.suspend_oldest_inactive count e nowEpoch) :=
  tabsOk_suspendList _ m e nowEpoch h

theorem tabOk_of_fields {f : Tab → Tab} (h1 : ∀ t, (f t).state = t.state)
    (h2 : ∀ t, (f t).suspended_data = t.suspended_data) :
    ∀ t, tabOk t → tabOk (f t) := by
  intro t ht
  unfold tabOk at ht ⊢
  rw [h1, h2]
  exact ht

theorem tabsOk_update_url (m : TabManager) (id : ViewId) (url : String) (h : TabsOk m) :
    TabsOk (m.update_tab_url id url) :=
  tabsOk_modify_of h (tabOk_of_fields (fun _ => rfl) (fun _ => rfl))

theorem tabsOk_update_title (m : TabManager) (id : ViewId) (title : String) (h : TabsOk m) :
    TabsOk (m.update_tab_title id title) :=
  tabsOk_modify_of h (tabOk_of_fields (fun _ => rfl) (fun _ => rfl))

theorem tabsOk_update_favicon (m : TabManager) (id : ViewId) (fav : List Nat) (h : TabsOk m) :
    TabsOk (m.update_tab_favicon id fav) :=
  tabsOk_modify_of h (tabOk_of_fields (fun _ => rfl) (fun _ => rfl))

theorem activeOk_modify_statePres (m : TabManager) {id : ViewId} {f : Tab → Tab}
    (hf : ∀ t, (f t).state = t.state) (h : ActiveOk m) :
    ActiveOk { m with tabs := tabsModify m.tabs id f } := by
  intro x tab hx htab
  change m.active_tab = some x at hx
  change tabsGet (tabsModify m.tabs id f) x = some tab at htab
  by_cases hxi : x = id
  · subst hxi
    rw [tabsGet_tabsModify_self] at htab
    cases hg : tabsGet m.tabs x with
    | none => rw [hg] at htab; exact absurd htab (by simp)
    | some t0 =>
      rw [hg] at htab
      cases htab
      rw [hf]
      exact h x t0 hx hg
  · rw [tabsGet_tabsModify_ne _ _ hxi] at htab
    exact h x tab hx htab

theorem activeOk_create (m : TabManager) (e : EngineOracle) (now : Nat) (h : ActiveOk m) :
    ActiveOk (m.create_tab e now).1 := by
  rcases create_tab_cases m e now with hc | hc <;> rw [hc]
  · intro x tab hx htab
    exact h x tab hx htab
  · intro x tab hx htab
    change (if m.active_tab = none then some m.next_id else m.active_tab) = some x at hx
    change tabsGet (tabsInsert m.tabs m.next_id (Tab.new m.next_id now)) x = some tab at htab
    by_cases hxi : x = m.next_id
    · subst hxi
      rw [tabsGet_tabsInsert_self] at htab
      cases htab
      simp [Tab.new]
    · rw [tabsGet_tabsInsert_ne _ _ hxi] at htab
      by_cases ha : m.active_tab = none
      · rw [if_pos ha] at hx
        cases hx
        exact absurd rfl hxi
      · rw [if_neg ha] at hx
        exact h x tab hx htab

theorem activeOk_suspend (m : TabManager) (id : ViewId) (e : EngineOracle) (nowEpoch : Nat)
    (h : ActiveOk m) : ActiveOk (m.suspend_tab id e nowEpoch).1 := by
  rcases suspend_tab_cases m id e nowEpoch with hc | ⟨ha, s, hc⟩ <;> rw [hc]
  · exact h
  · intro x tab hx htab
    change m.active_tab = some x at hx
    change tabsGet (tabsModify m.tabs id _) x = some tab at htab
    have hxi : x ≠ id := fun hh => ha (hh ▸ hx)
    rw [tabsGet_tabsModify_ne _ _ hxi] at htab
    exact h x tab hx htab

theorem activeOk_resume (m : TabManager) (id : ViewId) (e : EngineOracle)
    (h : ActiveOk m) : ActiveOk (m.resume_tab id e).1 := by
  rcases resume_tab_cases m id e with hc | hc <;> rw [hc]
  · exact h
  · intro x tab hx htab
    change m.active_tab = some x at hx
    change tabsGet (tabsModify m.tabs id _) x = some tab at htab
    by_cases hxi : x = id
    · subst hxi
      rw [tabsGet_tabsModify_self] at htab
      cases hg : tabsGet m.tabs x with
      | none => rw [hg] at htab; exact absurd htab (by simp)
      | some t0 =>
        rw [hg] at htab
        cases htab
        simp
    · rw [tabsGet_tabsModify_ne _ _ hxi] at htab
      exact h x tab hx htab

theorem activeOk_backgroundCurrent (m : TabManager) (h : ActiveOk m) :
    ActiveOk m.backgroundCurrent := by
  unfold TabManager.backgroundCurrent
  cases hac : m.active_tab with
  | none => exact h
  | some cur =>
    intro x tab hx htab
    change (some cur : Option ViewId) = some x at hx
    change tabsGet (tabsModify m.tabs cur Tab.mark_background) x = some tab at htab
    have hxc : cur = x := Option.some.inj hx
    subst hxc
    rw [tabsGet_tabsModify_self] at htab
    cases hg : tabsGet m.tabs cur with
    | none => rw [hg] at htab; exact absurd htab (by simp)
    | some t0 =>
      rw [hg] at htab
      cases htab
      exact state_mark_background_ne (h cur t0 hac hg)

theorem activeOk_resumeIfSuspended (m : TabManager) (id : ViewId) (e : EngineOracle)
    (h : ActiveOk m) : ActiveOk (m.resumeIfSuspended id e).1 := by
  unfold TabManager.resumeIfSuspended
  cases tabsGet m.tabs id with
  | none => exact h
  | some tab =>
    by_cases hs : tab.state = TabState.Suspended
    · simp only [hs, if_true]
      exact activeOk_resume m id e h
    · simp only [hs, if_false]
      exact h

theorem resumeIfSuspended_ok_target (m : TabManager) (id : ViewId) (e : EngineOracle)
    {m2 : TabManager} {u : Unit} (hr : m.resumeIfSuspended id e = (m2, .ok u)) :
    ∀ tab, tabsGet m2.tabs id = some tab → tab.state ≠ TabState.Suspended := by
  unfold TabManager.resumeIfSuspended at hr
  cases hg : tabsGet m.tabs id with
  | none =>
    rw [hg] at hr
    cases hr
    intro tab htab
    rw [hg] at htab
    exact absurd htab (by simp)
  | some tab0 =>
    rw [hg] at hr
    have hr' : (if tab0.state = TabState.Suspended then m.resume_tab id e
        else (m, Except.ok ())) = (m2, Except.ok u) := hr
    by_cases hs : tab0.state = TabState.Suspended
    · rw [if_pos hs] at hr'
      intro tab htab
      have h2 := resume_tab_ok_target m id e u (by rw [hr'])
      apply h2
      rw [hr']
      exact htab
    · rw [if_neg hs] at hr'
      cases hr'
      intro tab htab
      rw [hg] at htab
      cases htab
      exact hs

theorem activeOk_switch (m : TabManager) (id : ViewId) (e : EngineOracle) (now : Nat)
    (h : ActiveOk m) : ActiveOk (m.switch_to_tab id e now).1 := by
  unfold TabManager.switch_to_tab
  have hb : ActiveOk m.backgroundCurrent := activeOk_backgroundCurrent m h
  rcases hr : (m.backgroundCurrent).resumeIfSuspended id e with ⟨m2, r⟩
  have h2 : ActiveOk m2 := by
    have h3 := activeOk_resumeIfSuspended m.backgroundCurrent id e hb
    rw [hr] at h3
    exact h3
  cases r with
  | error err => exact h2
  | ok u =>
    intro x tab hx htab
    change (some id : Option ViewId) = some x at hx
    cases hx
    change tabsGet (tabsModify m2.tabs id (fun t => t.mark_active now)) id = some tab at htab
    rw [tabsGet_tabsModify_self] at htab
    cases hg : tabsGet m2.tabs id with
    | none => rw [hg] at htab; exact absurd htab (by simp)
    | some t0 =>
      rw [hg] at htab
      cases htab
      exact state_mark_active_ne (resumeIfSuspended_ok_target _ id e hr t0 hg) now

theorem activeOk_suspendList (ids : List ViewId) (m : TabManager) (e : EngineOracle)
    (nowEpoch : Nat) (h : ActiveOk m) : ActiveOk (m.suspendList ids e nowEpoch) := by
  induction ids generalizing m with
  | nil => exact h
  | cons id rest ih => exact ih _ (activeOk_suspend m id e nowEpoch h)

theorem activeOk_check_suspensions (m : TabManager) (e : EngineOracle) (now nowEpoch : Nat)
    (h : ActiveOk m) : ActiveOk (m.check_suspensions e now nowEpoch) := by
  unfold TabManager.check_suspensions
  by_cases hc : m.suspension_config.enabled = false
  · simp only [hc, if_true]
    exact h
  · simp only [hc, if_false]
    exact activeOk_suspendList _ m e nowEpoch h

theorem activeOk_suspend_all (m : TabManager) (e : EngineOracle) (nowEpoch : Nat)
    (h : ActiveOk m) : ActiveOk (m.suspend_all_inactive e nowEpoch) :=
  activeOk_suspendList _ m e nowEpoch h

theorem activeOk_suspend_oldest (m : TabManager) (count : Nat) (e : EngineOracle)
    (nowEpoch : Nat) (h : ActiveOk m) : ActiveOk (m.suspend_oldest_inactive count e nowEpoch) :=
  activeOk_suspendList _ m e nowEpoch h

theorem activeOk_update_url (m : TabManager) (id : ViewId) (url : String) (h : ActiveOk m) :
    ActiveOk (m.update_tab_url id url) :=
  activeOk_modify_statePres m (fun _ => rfl) h

theorem activeOk_update_title (m : TabManager) (id : ViewId) (title : String)
    (h : ActiveOk m) : ActiveOk (m.update_tab_title id title) :=
  activeOk_modify_statePres m (fun _ => rfl) h

theorem activeOk_update_favicon (m : TabManager) (id : ViewId) (fav : List Nat)
    (h : ActiveOk m) : ActiveOk (m.update_tab_favicon id fav) :=
  activeOk_modify_statePres m (fun _ => rfl) h

/-! ### Reachability through the public operations -/

/-- One application of a public tab-manager operation: `create_tab`,
`close_tab`, `switch_to_tab`, `suspend_tab`, `resume_tab`, the three
sweep operations, and the metadata updaters. -/
inductive Step : TabManager → TabManager → Prop where
  | create (m : TabManager) (e : EngineOracle) (now : Nat) : Step m (m.create_tab e now).1
  | close (m : TabManager) (id : ViewId) (e : EngineOracle) : Step m (m.close_tab id e).1
  | switch (m : TabManager) (id : ViewId) (e : EngineOracle) (now : Nat) :
      Step m (m.switch_to_tab id e now).1
  | suspend (m : TabManager) (id : ViewId) (e : EngineOracle) (nowEpoch : Nat) :
      Step m (m.suspend_tab id e nowEpoch).1
  | resume (m : TabManager) (id : ViewId) (e : EngineOracle) : Step m (m.resume_tab id e).1
  | sweep (m : TabManager) (e : EngineOracle) (now nowEpoch : Nat) :
      Step m (m.check_suspensions e now nowEpoch)
  | sweepAll (m : TabManager) (e : EngineOracle) (nowEpoch : Nat) :
      Step m (m.suspend_all_inactive e nowEpoch)
  | sweepOldest (m : TabManager) (count : Nat) (e : EngineOracle) (nowEpoch : Nat) :
      Step m (m.suspend_oldest_inactive count e nowEpoch)
  | updUrl (m : TabManager) (id : ViewId) (url : String) : Step m (m.update_tab_url id url)
  | updTitle (m : TabManager) (id : ViewId) (title : String) :
      Step m (m.update_tab_title id title)
  | updFavicon (m : TabManager) (id : ViewId) (fav : List Nat) :
      Step m (m.update_tab_favicon id fav)

/-- States reachable from a fresh manager through the public operations. -/
inductive Reachable : TabManager → Prop where
  | init (config : SuspensionConfig) : Reachable (TabManager.new config)
  | step {m m' : TabManager} : Reachable m → Step m m' → Reachable m'

/-- The public operations without `close_tab`. -/
inductive StepNC : TabManager → TabManager → Prop where
  | create (m : TabManager) (e : EngineOracle) (now : Nat) : StepNC m (m.create_tab e now).1
  | switch (m : TabManager) (id : ViewId) (e : EngineOracle) (now : Nat) :
      StepNC m (m.switch_to_tab id e now).1
  | suspend (m : TabManager) (id : ViewId) (e : EngineOracle) (nowEpoch : Nat) :
      StepNC m (m.suspend_tab id e nowEpoch).1
  | resume (m : TabManager) (id : ViewId) (e : EngineOracle) : StepNC m (m.resume_tab id e).1
  | sweep (m : TabManager) (e : EngineOracle) (now nowEpoch : Nat) :
      StepNC m (m.check_suspensions e now nowEpoch)
  | sweepAll (m : TabManager) (e : EngineOracle) (nowEpoch : Nat) :
      StepNC m (m.suspend_all_inactive e nowEpoch)
  | sweepOldest (m : TabManager) (count : Nat) (e : EngineOracle) (nowEpoch : Nat) :
      StepNC m (m.suspend_oldest_inactive count e nowEpoch)
  | updUrl (m : TabManager) (id : ViewId) (url : String) : StepNC m (m.update_tab_url id url)
  | updTitle (m : TabManager) (id : ViewId) (title : String) :
      StepNC m (m.update_tab_title id title)
  | updFavicon (m : TabManager) (id : ViewId) (fav : List Nat) :
      StepNC m (m.update_tab_favicon id fav)

/-- States reachable through the public operations excluding `close_tab`. -/
inductive ReachableNC : TabManager → Prop where
  | init (config : SuspensionConfig) : ReachableNC (TabManager.new config)
  | step {m m' : TabManager} : ReachableNC m → StepNC m m' → ReachableNC m'

theorem tabsOk_step {m m' : TabManager} (hs : Step m m') (h : TabsOk m) : TabsOk m' := by
  cases hs with
  | create e now => exact tabsOk_create m e now h
  | close id e => exact tabsOk_close m id e h
  | switch id e now => exact tabsOk_switch m id e now h
  | suspend id e nowEpoch => exact tabsOk_suspend m id e nowEpoch h
  | resume id e => exact tabsOk_resume m id e h
  | sweep e now nowEpoch => exact tabsOk_check_suspensions m e now nowEpoch h
  | sweepAll e nowEpoch => exact tabsOk_suspend_all m e nowEpoch h
  | sweepOldest count e nowEpoch => exact tabsOk_suspend_oldest m count e nowEpoch h
  | updUrl id url => exact tabsOk_update_url m id url h
  | updTitle id title => exact tabsOk_update_title m id title h
  | updFavicon id fav => exact tabsOk_update_favicon m id fav h

theorem tabsOk_reachable {m : TabManager} (h : Reachable m) : TabsOk m := by
  induction h with
  | init config => intro p hp; simp [TabManager.new] at hp
  | step _ hs ih => exact tabsOk_step hs ih

theorem activeOk_stepNC {m m' : TabManager} (hs : StepNC m m') (h : ActiveOk m) :
    ActiveOk m' := by
  cases hs with
  | create e now => exact activeOk_create m e now h
  | switch id e now => exact activeOk_switch m id e now h
  | suspend id e nowEpoch => exact activeOk_suspend m id e nowEpoch h
  | resume id e => exact activeOk_resume m id e h
  | sweep e now nowEpoch => exact activeOk_check_suspensions m e now nowEpoch h
  | sweepAll e nowEpoch => exact activeOk_suspend_all m e nowEpoch h
  | sweepOldest count e nowEpoch => exact activeOk_suspend_oldest m count e nowEpoch h
  | updUrl id url => exact activeOk_update_url m id url h
  | updTitle id title => exact activeOk_update_title m id title h
  | updFavicon id fav => exact activeOk_update_favicon m id fav h

theorem activeOk_reachableNC {m : TabManager} (h : ReachableNC m) : ActiveOk m := by
  induction h with
  | init config => intro x tab hx htab; simp [TabManager.new] at hx
  | step _ hs ih => exact activeOk_stepNC hs ih

/-! ### Sweep-loop lemmas -/

theorem suspendList_active (ids : List ViewId) : ∀ (m : TabManager) (e : EngineOracle)
    (nowEpoch : Nat), (m.suspendList ids e nowEpoch).active_tab = m.active_tab := by
  induction ids with
  | nil => intro m e t; rfl
  | cons id rest ih =>
    intro m e t
    show (((m.suspend_tab id e t).1).suspendList rest e t).active_tab = m.active_tab
    rw [ih, suspend_tab_active]

theorem suspendList_config (ids : List ViewId) : ∀ (m : TabManager) (e : EngineOracle)
    (nowEpoch : Nat),
    (m.suspendList ids e nowEpoch).suspension_config = m.suspension_config := by
  induction ids with
  | nil => intro m e t; rfl
  | cons id rest ih =>
    intro m e t
    show (((m.suspend_tab id e t).1).suspendList rest e t).suspension_config =
      m.suspension_config
    rw [ih, suspend_tab_config]

theorem suspendList_get_notmem (ids : List ViewId) : ∀ (m : TabManager) (e : EngineOracle)
    (nowEpoch : Nat) {id : ViewId}, id ∉ ids →
    tabsGet (m.suspendList ids e nowEpoch).tabs id = tabsGet m.tabs id := by
  induction ids with
  | nil => intro m e t id _; rfl
  | cons id' rest ih =>
    intro m e t id h
    have h1 : id ≠ id' := fun hh => h (by simp [hh])
    have h2 : id ∉ rest := fun hh => h (List.mem_cons_of_mem _ hh)
    show tabsGet ((((m.suspend_tab id' e t).1).suspendList rest e t)).tabs id =
      tabsGet m.tabs id
    rw [ih _ e t h2, suspend_tab_get_ne m e t h1]

theorem suspendList_suspended_stays (ids : List ViewId) : ∀ (m : TabManager)
    (e : EngineOracle) (nowEpoch : Nat) {id : ViewId} {tab : Tab},
    tabsGet m.tabs id = some tab → tab.state = TabState.Suspended →
    tabsGet (m.suspendList ids e nowEpoch).tabs id = some tab := by
  induction ids with
  | nil => intro m e t id tab hg _; exact hg
  | cons id' rest ih =>
    intro m e t id tab hg hs
    show tabsGet ((((m.suspend_tab id' e t).1).suspendList rest e t)).tabs id = some tab
    by_cases hii : id = id'
    · subst hii
      rw [suspend_tab_suspended_noop m e t hg hs]
      exact ih m e t hg hs
    · refine ih _ e t ?_ hs
      rw [suspend_tab_get_ne m e t hii]
      exact hg

theorem suspendList_mem_suspends (ids : List ViewId) : ∀ (m : TabManager) (nowEpoch : Nat)
    {id : ViewId} {tab : Tab}, id ∈ ids → tabsGet m.tabs id = some tab →
    tab.state ≠ TabState.Suspended → m.active_tab ≠ some id →
    ¬(tab.pinned = true ∧ m.suspension_config.suspend_pinned = false) →
    ∃ tab', tabsGet (m.suspendList ids eOK nowEpoch).tabs id = some tab' ∧
      tab'.state = TabState.Suspended := by
  induction ids with
  | nil => intro m t id tab hmem; exact absurd hmem (by simp)
  | cons id' rest ih =>
    intro m t id tab hmem hg hs ha hp
    show ∃ tab', tabsGet ((((m.suspend_tab id' eOK t).1).suspendList rest eOK t)).tabs id =
      some tab' ∧ tab'.state = TabState.Suspended
    by_cases hii : id = id'
    · subst hii
      obtain ⟨s, hps⟩ := suspend_tab_eligible_get m eOK t hg hs ha hp rfl
      exact ⟨_, suspendList_suspended_stays rest _ eOK t hps rfl, rfl⟩
    · have hmem' : id ∈ rest := by
        rcases List.mem_cons.mp hmem with h1 | h1
        · exact absurd h1 hii
        · exact h1
      have hg' : tabsGet (m.suspend_tab id' eOK t).1.tabs id = some tab := by
        rw [suspend_tab_get_ne m eOK t hii]
        exact hg
      refine ih _ t hmem' hg' hs ?_ ?_
      · rw [suspend_tab_active]
        exact ha
      · rw [suspend_tab_config]
        exact hp

/-! ### Display-order lemmas -/

/-- The tab immediately preceding `id` in a display order (the spec's
"the tab immediately preceding it in display order"). -/
def prevInOrder : List ViewId → ViewId → Option ViewId
  | [], _ => none
  | [_], _ => none
  | a :: b :: rest, id =>
    if a = id then none
    else if b = id then some a
    else prevInOrder (b :: rest) id

theorem mem_of_getLastEq {l : List ViewId} {a : ViewId} (h : l.getLast? = some a) :
    a ∈ l := by
  obtain ⟨hne, heq⟩ := List.mem_getLast?_eq_getLast (l := l) (x := a) h
  rw [heq]
  exact List.getLast_mem hne

/-- When the last tab of a duplicate-free display order is removed,
the last remaining tab is exactly the tab that immediately preceded
it. -/
theorem prev_of_filter_getLast (order : List ViewId) (id : ViewId) (hnd : order.Nodup)
    (hlast : order.getLast? = some id) :
    (order.filter (fun x => x ≠ id)).getLast? = prevInOrder order id := by
  induction order with
  | nil => simp at hlast
  | cons a rest ih =>
    cases rest with
    | nil =>
      have ha : a = id := by simpa using hlast
      subst ha
      simp [prevInOrder]
    | cons b rest2 =>
      have hlast2 : (b :: rest2).getLast? = some id := by
        rw [← List.getLast?_cons_cons]
        exact hlast
      have hmem : id ∈ b :: rest2 := mem_of_getLastEq hlast2
      have hnotmem : a ∉ b :: rest2 := (List.nodup_cons.mp hnd).1
      have hane : a ≠ id := fun h => hnotmem (h ▸ hmem)
      have hnd2 : (b :: rest2).Nodup := (List.nodup_cons.mp hnd).2
      rw [List.filter_cons_of_pos (by simp [hane])]
      by_cases hb : b = id
      · subst hb
        have hrest2 : rest2 = [] := by
          cases rest2 with
          | nil => rfl
          | cons c rest3 =>
            have h1 : (c :: rest3).getLast? = some b := by
              rw [← List.getLast?_cons_cons]
              exact hlast2
            exact absurd (mem_of_getLastEq h1) (List.nodup_cons.mp hnd2).1
        subst hrest2
        simp [prevInOrder, hane]
      · have ihr := ih hnd2 hlast2
        have hbmem : b ∈ (b :: rest2).filter (fun x => x ≠ id) :=
          List.mem_filter.mpr ⟨List.mem_cons_self _ _, by simp [hb]⟩
        have hfne : (b :: rest2).filter (fun x => x ≠ id) ≠ [] :=
          List.ne_nil_of_mem hbmem
        calc (a :: (b :: rest2).filter (fun x => x ≠ id)).getLast?
            = ((b :: rest2).filter (fun x => x ≠ id)).getLast? := by
              cases hfe : (b :: rest2).filter (fun x => x ≠ id) with
              | nil => exact absurd hfe hfne
              | cons c l => exact List.getLast?_cons_cons
          _ = prevInOrder (b :: rest2) id := ihr
          _ = prevInOrder (a :: b :: rest2) id := by simp [prevInOrder, hane, hb]

/-! ### Behavioral equations of `should_block` -/

theorem should_block_disabled (b : ContentBlocker) (url source_url resource_type : String)
    (hen : b.enabled = false) :
    b.should_block url source_url resource_type =
      ({ matched := false, matching_rule := none, is_exception := false },
       { b with stats := { b.stats with total_checked := b.stats.total_checked + 1 } }) := by
  unfold ContentBlocker.should_block
  simp [hen]

theorem should_block_fastpath (b : ContentBlocker) (url source_url resource_type : String)
    (domain : String) (hen : b.enabled = true) (hd : extract_domain url = some domain)
    (hc : b.domain_blocklist.contains domain = true) :
    b.should_block url source_url resource_type =
      ({ matched := true, matching_rule := some ("domain:" ++ domain), is_exception := false },
       { b with stats :=
          { total_checked := b.stats.total_checked + 1
            total_blocked := b.stats.total_blocked + 1
            bytes_saved := b.stats.bytes_saved + estimate_resource_size resource_type
            filter_count := b.stats.filter_count } }) := by
  have hmem : domain ∈ b.domain_blocklist := by simpa using hc
  unfold ContentBlocker.should_block
  simp [hen, hd, hmem]

/-! ### Concrete states used to settle the claims -/

/-- An engine whose `destroy_view` calls fail. -/
def eFailDestroy : EngineOracle := fun c =>
  match c with
  | .destroyView _ => .error (.other "destroy failed")
  | _ => .ok ()

/-- An engine whose `suspend_view` calls fail. -/
def eFailSuspend : EngineOracle := fun c =>
  match c with
  | .suspendView _ => .error (.other "suspend failed")
  | _ => .ok ()

/-- Three fresh tabs in display order `[1, 2, 3]` with the middle tab
active. -/
def exC1m : TabManager :=
  { tabs := [(1, Tab.new 1 0), (2, Tab.new 2 0), (3, Tab.new 3 0)]
    active_tab := some 2
    tab_order := [1, 2, 3]
    next_id := 4
    suspension_config := SuspensionConfig.defaultConfig }

/-- Three fresh tabs in display order `[1, 2, 3]` with the last tab
active. -/
def exC1last : TabManager :=
  { tabs := [(1, Tab.new 1 0), (2, Tab.new 2 0), (3, Tab.new 3 0)]
    active_tab := some 3
    tab_order := [1, 2, 3]
    next_id := 4
    suspension_config := SuspensionConfig.defaultConfig }

/-- One `create_tab` from a fresh manager. -/
def mOne : TabManager :=
  ((TabManager.new SuspensionConfig.defaultConfig).create_tab eOK 0).1

/-- Two `create_tab`s from a fresh manager: tab 1 active, tab 2 loading. -/
def mTwo : TabManager := (mOne.create_tab eOK 0).1

/-- `mTwo` after `suspend_tab 2`: tab 1 active, tab 2 suspended. -/
def mW : TabManager := (mTwo.suspend_tab 2 eOK 5).1

/-- `mW` after closing the active tab 1: the active pointer falls back
to the suspended tab 2. -/
def mBad : TabManager := (mW.close_tab 1 eOK).1

/-- The record of tab 2 in `mW` and `mBad`. -/
def tabW : Tab :=
  { view_id := 2
    state := .Suspended
    url := "about:blank"
    title := "New Tab"
    last_active := 0
    created_at := 0
    suspended_data := some
      { url := "about:blank"
        title := "New Tab"
        scroll_position := (0, 0)
        suspended_at := 5
        favicon := none }
    pinned := false
    favicon := none }

theorem reach_mW : Reachable mW :=
  .step (.step (.step (.init SuspensionConfig.defaultConfig)
    (.create _ eOK 0)) (.create _ eOK 0)) (.suspend _ 2 eOK 5)

/-- A background tab with a given `last_active` stamp and pin flag. -/
def exBg (id la : Nat) (p : Bool) : Tab :=
  { Tab.new id 0 with state := .Background, last_active := la, pinned := p }

/-- Background tabs 1, 2, 3 (`last_active` 10 < 20 < 30, tab 1 pinned)
plus an active tab 4. -/
def exC8pin : TabManager :=
  { tabs := [(1, exBg 1 10 true), (2, exBg 2 20 false), (3, exBg 3 30 false),
             (4, { Tab.new 4 0 with state := .Active })]
    active_tab := some 4
    tab_order := [1, 2, 3, 4]
    next_id := 5
    suspension_config := SuspensionConfig.defaultConfig }

/-- Background tabs 1, 2, 3 (`last_active` 10 < 20 < 30, none pinned)
plus an active tab 4. -/
def exC8m : TabManager :=
  { tabs := [(1, exBg 1 10 false), (2, exBg 2 20 false), (3, exBg 3 30 false),
             (4, { Tab.new 4 0 with state := .Active })]
    active_tab := some 4
    tab_order := [1, 2, 3, 4]
    next_id := 5
    suspension_config := SuspensionConfig.defaultConfig }

/-- A blocker loaded with the exception rule `@@||example.com^` and the
block rule `||example.com^`. -/
def exC2blocker : ContentBlocker :=
  ContentBlocker.new.add_filter_list "@@||example.com^\n||example.com^"

/-- A blocker with blocking globally disabled. -/
def exC3blocker : ContentBlocker := ContentBlocker.new.set_enabled false

/-- The sweep eligibility filter written the way the spec's sentence
for `suspend_oldest_inactive` describes it (modelled from the spec for
comparison with `oldestCandidates`): state = Background, not the
active tab, and not pinned unless `suspend_pinned` is set. -/
def specOldestCandidates (m : TabManager) : List (ViewId × Nat) :=
  (m.tabs.filter (fun p =>
      decide (p.2.state = TabState.Background)
      && !(decide (m.active_tab = some p.1))
      && (!p.2.pinned || m.suspension_config.suspend_pinned))).map
    (fun p => (p.1, p.2.last_active))

/-! ### Claim C1 -/

/-- The claim as stated: closing the active tab activates the tab
immediately preceding the closed tab in display order, or none if no
tabs remain. -/
def C1Claim : Prop :=
  ∀ (m : TabManager) (id : ViewId) (e : EngineOracle),
    m.active_tab = some id → (m.close_tab id e).2 = .ok () →
    ((∃ p, prevInOrder m.tab_order id = some p ∧
        (m.close_tab id e).1.active_tab = some p) ∨
     ((m.close_tab id e).1.tab_order = [] ∧ (m.close_tab id e).1.active_tab = none))

/-- C1 fails on the code: with display order `[1, 2, 3]` and active
tab 2, closing tab 2 activates tab 3 (the last tab in the remaining
order), not the preceding tab 1. -/
theorem c1_counterexample : ¬ C1Claim := by
  intro h
  rcases h exC1m 2 eOK rfl rfl with ⟨p, hp, ha⟩ | ⟨ho, _⟩
  · have hp1 : prevInOrder exC1m.tab_order 2 = some 1 := by decide
    rw [hp1] at hp
    cases hp
    have ha3 : (exC1m.close_tab 2 eOK).1.active_tab = some 3 := by decide
    rw [ha3] at ha
    exact absurd (Option.some.inj ha) (by decide)
  · exact absurd ho (by decide)

theorem close_active_last (m : TabManager) (id : ViewId) (e : EngineOracle)
    (ha : m.active_tab = some id) (hok : (m.close_tab id e).2 = .ok ()) :
    (m.close_tab id e).1.active_tab = (m.tab_order.filter (fun x => x ≠ id)).getLast? := by
  rcases close_tab_spec m id e with hc | ⟨err, hc, _⟩
  · rw [hc]
    show (m.removeClosed id).active_tab = _
    unfold TabManager.removeClosed
    simp [ha]
  · rw [hc] at hok
    exact Except.noConfusion hok

/-- C1 (amended): closing the active tab activates the last tab of the
post-removal display order (none iff no tabs remain); this equals the
tab immediately preceding the closed tab exactly when the closed tab
was last in a duplicate-free display order. -/
theorem c1_amended :
    (∀ (m : TabManager) (id : ViewId) (e : EngineOracle),
      m.active_tab = some id → (m.close_tab id e).2 = .ok () →
      (m.close_tab id e).1.active_tab = (m.tab_order.filter (fun x => x ≠ id)).getLast?)
    ∧ (∀ (m : TabManager) (id : ViewId) (e : EngineOracle),
      m.active_tab = some id → (m.close_tab id e).2 = .ok () →
      m.tab_order.Nodup → m.tab_order.getLast? = some id →
      (m.close_tab id e).1.active_tab = prevInOrder m.tab_order id) := by
  constructor
  · exact close_active_last
  · intro m id e ha hok hnd hlast
    rw [close_active_last m id e ha hok]
    exact prev_of_filter_getLast m.tab_order id hnd hlast

/-- C1 witness: closing active tab 2 of `[1, 2, 3]` activates the last
remaining tab; closing active tab 3 (the last) activates its
predecessor 2. -/
theorem c1_witness :
    (exC1m.close_tab 2 eOK).1.active_tab =
      (exC1m.tab_order.filter (fun x => x ≠ 2)).getLast?
    ∧ (exC1last.close_tab 3 eOK).1.active_tab = prevInOrder exC1last.tab_order 3 :=
  ⟨c1_amended.1 exC1m 2 eOK rfl rfl,
   c1_amended.2 exC1last 3 eOK rfl rfl (by decide) rfl⟩

/-! ### Claim C4 -/

/-- The claim as stated: `close_tab` always removes the Tab record and
its display-order entry, also when the engine destroy call fails. -/
def C4Claim : Prop :=
  ∀ (m : TabManager) (id : ViewId) (e : EngineOracle) (tab : Tab),
    tabsGet m.tabs id = some tab →
    tabsGet (m.close_tab id e).1.tabs id = none ∧ id ∉ (m.close_tab id e).1.tab_order

/-- C4 fails on the code: when `destroy_view` fails, `close_tab`
returns the error before removing anything; the record of tab 1 is
still present afterwards. -/
theorem c4_counterexample : ¬ C4Claim := by
  intro h
  have h2 := (h exC1m 1 eFailDestroy (Tab.new 1 0) rfl).1
  have h3 : tabsGet (exC1m.close_tab 1 eFailDestroy).1.tabs 1 = some (Tab.new 1 0) := by
    decide
  rw [h2] at h3
  exact Option.noConfusion h3

/-- C4 (amended): when `close_tab` returns `Ok` the record and its
display-order entry are removed; when the engine destroy call fails,
the failure is propagated unmodified and the manager — including the
Tab record — is left unchanged. -/
theorem c4_amended :
    (∀ (m : TabManager) (id : ViewId) (e : EngineOracle),
      (m.tabs.map Prod.fst).Nodup → (m.close_tab id e).2 = .ok () →
      tabsGet (m.close_tab id e).1.tabs id = none ∧
        id ∉ (m.close_tab id e).1.tab_order)
    ∧ (∀ (m : TabManager) (id : ViewId) (e : EngineOracle) (err : EngineError),
      (m.close_tab id e).2 = .error err →
      (m.close_tab id e).1 = m ∧ ∃ tab, tabsGet m.tabs id = some tab ∧
        tab.state ≠ TabState.Suspended ∧ e (.destroyView id) = .error err) := by
  constructor
  · intro m id e hnd hok
    rcases close_tab_spec m id e with hc | ⟨err, hc, _⟩
    · rw [hc]
      constructor
      · show tabsGet (m.removeClosed id).tabs id = none
        unfold TabManager.removeClosed
        exact tabsGet_tabsRemove_self hnd
      · show id ∉ (m.removeClosed id).tab_order
        unfold TabManager.removeClosed
        simp
    · rw [hc] at hok
      exact Except.noConfusion hok
  · intro m id e err herr
    rcases close_tab_spec m id e with hc | ⟨err', hc, tab, hg, hs, he⟩
    · rw [hc] at herr
      exact Except.noConfusion herr
    · rw [hc] at herr ⊢
      cases herr
      exact ⟨rfl, tab, hg, hs, he⟩

/-- C4 witness: a successful close removes tab 2; a failing destroy on
tab 1 leaves the manager unchanged with the error propagated. -/
theorem c4_witness :
    (tabsGet (exC1m.close_tab 2 eOK).1.tabs 2 = none ∧
      2 ∉ (exC1m.close_tab 2 eOK).1.tab_order)
    ∧ ((exC1m.close_tab 1 eFailDestroy).1 = exC1m ∧
      ∃ tab, tabsGet exC1m.tabs 1 = some tab ∧ tab.state ≠ TabState.Suspended ∧
        eFailDestroy (.destroyView 1) = .error (.other "destroy failed")) :=
  ⟨c4_amended.1 exC1m 2 eOK (by decide) rfl,
   c4_amended.2 exC1m 1 eFailDestroy (.other "destroy failed") rfl⟩

/-! ### Claim C5 -/

/-- C5: for a tab eligible for suspension, a failing engine
`suspend_view` call is propagated and leaves the manager — hence the
tab's `state` and `suspended_data` — unchanged; the tab becomes
`Suspended` with `suspended_data = Some` only when the engine call
succeeds. -/
theorem c5_confirmed :
    ∀ (m : TabManager) (id : ViewId) (e : EngineOracle) (nowEpoch : Nat) (tab : Tab),
    tabsGet m.tabs id = some tab → tab.state ≠ TabState.Suspended →
    m.active_tab ≠ some id →
    ¬(tab.pinned = true ∧ m.suspension_config.suspend_pinned = false) →
    (∀ err, e (.suspendView id) = .error err →
      m.suspend_tab id e nowEpoch = (m, .error err))
    ∧ (e (.suspendView id) = .ok () →
      ∃ tab', tabsGet (m.suspend_tab id e nowEpoch).1.tabs id = some tab' ∧
        tab'.state = TabState.Suspended ∧ tab'.suspended_data.isSome = true) := by
  intro m id e nowEpoch tab hg hs ha hp
  have h1 : ¬(tab.state = TabState.Suspended ∨ m.active_tab = some id) := fun hc =>
    hc.elim hs ha
  constructor
  · intro err he
    unfold TabManager.suspend_tab
    rw [hg]
    simp [h1, hp, he]
  · intro he
    obtain ⟨s, hps⟩ := suspend_tab_eligible_get m e nowEpoch hg hs ha hp he
    exact ⟨_, hps, rfl, rfl⟩

/-- C5 witness: in `mTwo` (tab 1 active, tab 2 loading) a failing
`suspend_view` makes `suspend_tab 2` return the engine's error with
the manager unchanged. -/
theorem c5_witness : mTwo.suspend_tab 2 eFailSuspend 5 =
    (mTwo, .error (.other "suspend failed")) :=
  (c5_confirmed mTwo 2 eFailSuspend 5 (Tab.new 2 0) rfl (by decide) (by decide)
    (by decide)).1 _ rfl

/-! ### Claim C6 -/

/-- C6: in every state reachable from a fresh manager through the
public operations, every tab satisfies
`state = Suspended ↔ suspended_data.isSome`. -/
theorem c6_confirmed : ∀ (m : TabManager), Reachable m → ∀ (id : ViewId) (tab : Tab),
    tabsGet m.tabs id = some tab →
    (tab.state = TabState.Suspended ↔ tab.suspended_data.isSome = true) := by
  intro m hr id tab hg
  exact tabsOk_reachable hr (id, tab) (tabsGet_mem hg)

/-- C6 witness: the reachable state `mW` (create, create, suspend 2)
holds tab 2 suspended with `suspended_data = Some`. -/
theorem c6_witness : tabW.state = TabState.Suspended ↔ tabW.suspended_data.isSome = true :=
  c6_confirmed mW reach_mW 2 tabW (by rfl)

/-! ### Claim C7 -/

/-- The claim as stated: in every reachable state the active tab, when
present, is not suspended. -/
def C7Claim : Prop :=
  ∀ (m : TabManager), Reachable m → ∀ (x : ViewId) (tab : Tab),
    m.active_tab = some x → tabsGet m.tabs x = some tab →
    tab.state ≠ TabState.Suspended

/-- C7 fails on the code: from a fresh manager, create tabs 1 and 2,
suspend tab 2, then close the active tab 1 — `close_tab` reassigns the
active pointer to the last tab in display order, the suspended tab 2,
without resuming it. -/
theorem c7_counterexample : ¬ C7Claim := by
  intro h
  have hb : Reachable mBad := .step reach_mW (.close _ 1 eOK)
  exact h mBad hb 2 tabW (by rfl) (by rfl) rfl

/-- C7 (amended): under the public operations excluding `close_tab`,
the active tab, when it exists, is never suspended; `close_tab` alone
can move the active pointer onto an already-suspended tab. -/
theorem c7_amended : ∀ (m : TabManager), ReachableNC m → ∀ (x : ViewId) (tab : Tab),
    m.active_tab = some x → tabsGet m.tabs x = some tab →
    tab.state ≠ TabState.Suspended := by
  intro m hr x tab hx hg
  exact activeOk_reachableNC hr x tab hx hg

/-- C7 witness: in the reachable state `mOne` the active tab 1 is not
suspended. -/
theorem c7_witness : (Tab.new 1 0).state ≠ TabState.Suspended :=
  c7_amended mOne (.step (.init SuspensionConfig.defaultConfig) (.create _ eOK 0)) 1
    (Tab.new 1 0) (by rfl) (by rfl)

/-! ### Claim C2 -/

/-- The claim as stated: with the exception rule `@@||example.com^`
and the block rule `||example.com^` loaded, checking
`https://example.com/a` yields `matched = false`,
`is_exception = true`, and no blocked-counter increment, for any
source URL and resource type. -/
def C2Claim : Prop :=
  ∀ (source_url resource_type : String),
    (exC2blocker.should_block "https://example.com/a" source_url resource_type).1.matched
      = false
    ∧ (exC2blocker.should_block "https://example.com/a" source_url
        resource_type).1.is_exception = true
    ∧ (exC2blocker.should_block "https://example.com/a" source_url
        resource_type).2.stats.total_blocked = exC2blocker.stats.total_blocked

/-- C2 fails on the code: `rule_matches` treats the trailing `^` of
`||example.com^` literally, and neither the host `example.com` nor the
URL contains the substring `example.com^`, so the exception rule does
not match and `is_exception` is `false`. -/
theorem c2_counterexample : ¬ C2Claim := by
  intro h
  have h2 := (h "https://example.com" "script").2.1
  have h3 : (exC2blocker.should_block "https://example.com/a" "https://example.com"
      "script").1.is_exception = false := rfl
  rw [h2] at h3
  exact Bool.noConfusion h3

/-- C2 (amended): neither rule matches (the `^` separator is matched
literally), so the check returns `matched = false`,
`is_exception = false`, `matching_rule = none`; the blocked counter
and bytes-saved are unchanged and only the checked counter is
incremented. -/
theorem c2_amended :
    ∀ (source_url resource_type : String),
    (exC2blocker.should_block "https://example.com/a" source_url resource_type).1.matched
      = false
    ∧ (exC2blocker.should_block "https://example.com/a" source_url
        resource_type).1.is_exception = false
    ∧ (exC2blocker.should_block "https://example.com/a" source_url
        resource_type).1.matching_rule = none
    ∧ (exC2blocker.should_block "https://example.com/a" source_url
        resource_type).2.stats.total_blocked = exC2blocker.stats.total_blocked
    ∧ (exC2blocker.should_block "https://example.com/a" source_url
        resource_type).2.stats.bytes_saved = exC2blocker.stats.bytes_saved
    ∧ (exC2blocker.should_block "https://example.com/a" source_url
        resource_type).2.stats.total_checked = exC2blocker.stats.total_checked + 1 := by
  intro source_url resource_type
  exact ⟨rfl, rfl, rfl, rfl, rfl, rfl⟩

/-! ### Claim C3 -/

/-- The claim as stated: the domain-blocklist fast path precedes the
globally-disabled check, so a request whose host is on the blocklist
is blocked even when blocking is disabled. -/
def C3Claim : Prop :=
  ∀ (b : ContentBlocker) (url source_url resource_type domain : String),
    extract_domain url = some domain → b.domain_blocklist.contains domain = true →
    (b.should_block url source_url resource_type).1.matched = true

/-- C3 fails on the code: `should_block` checks the disabled flag
before the fast path, so with blocking disabled a request to
`https://doubleclick.net/x` (a blocklisted host) is not blocked. -/
theorem c3_counterexample : ¬ C3Claim := by
  intro h
  have h2 := h exC3blocker "https://doubleclick.net/x" "https://a.com" "script"
    "doubleclick.net" rfl (by decide)
  have h3 : (exC3blocker.should_block "https://doubleclick.net/x" "https://a.com"
      "script").1.matched = false := rfl
  rw [h2] at h3
  exact Bool.noConfusion h3

/-- C3 (amended): the disabled check comes first.  When blocking is
enabled, a request whose extracted host is on the domain blocklist is
blocked immediately with `matching_rule = "domain:<host>"` and the
blocked and checked counters incremented; when blocking is disabled,
every request returns not-matched with only the checked counter
incremented. -/
theorem c3_amended :
    (∀ (b : ContentBlocker) (url source_url resource_type domain : String),
      b.enabled = true → extract_domain url = some domain →
      b.domain_blocklist.contains domain = true →
      (b.should_block url source_url resource_type).1.matched = true
      ∧ (b.should_block url source_url resource_type).1.matching_rule =
          some ("domain:" ++ domain)
      ∧ (b.should_block url source_url resource_type).1.is_exception = false
      ∧ (b.should_block url source_url resource_type).2.stats.total_blocked =
          b.stats.total_blocked + 1
      ∧ (b.should_block url source_url resource_type).2.stats.total_checked =
          b.stats.total_checked + 1)
    ∧ (∀ (b : ContentBlocker) (url source_url resource_type : String),
      b.enabled = false →
      (b.should_block url source_url resource_type).1.matched = false
      ∧ (b.should_block url source_url resource_type).1.matching_rule = none
      ∧ (b.should_block url source_url resource_type).2.stats.total_checked =
          b.stats.total_checked + 1
      ∧ (b.should_block url source_url resource_type).2.stats.total_blocked =
          b.stats.total_blocked
      ∧ (b.should_block url source_url resource_type).2.stats.bytes_saved =
          b.stats.bytes_saved) := by
  constructor
  · intro b url source_url resource_type domain hen hd hc
    rw [should_block_fastpath b url source_url resource_type domain hen hd hc]
    exact ⟨rfl, rfl, rfl, rfl, rfl⟩
  · intro b url source_url resource_type hen
    rw [should_block_disabled b url source_url resource_type hen]
    exact ⟨rfl, rfl, rfl, rfl, rfl⟩

/-- C3 witness: with blocking enabled, `https://doubleclick.net/x` is
blocked on the fast path; with blocking disabled it is not matched but
still counted. -/
theorem c3_witness :
    ((ContentBlocker.new.should_block "https://doubleclick.net/x" "https://a.com"
        "script").1.matched = true
      ∧ (ContentBlocker.new.should_block "https://doubleclick.net/x" "https://a.com"
        "script").1.matching_rule = some ("domain:" ++ "doubleclick.net")
      ∧ (ContentBlocker.new.should_block "https://doubleclick.net/x" "https://a.com"
        "script").1.is_exception = false
      ∧ (ContentBlocker.new.should_block "https://doubleclick.net/x" "https://a.com"
        "script").2.stats.total_blocked = ContentBlocker.new.stats.total_blocked + 1
      ∧ (ContentBlocker.new.should_block "https://doubleclick.net/x" "https://a.com"
        "script").2.stats.total_checked = ContentBlocker.new.stats.total_checked + 1)
    ∧ ((exC3blocker.should_block "https://doubleclick.net/x" "https://a.com"
        "script").1.matched = false
      ∧ (exC3blocker.should_block "https://doubleclick.net/x" "https://a.com"
        "script").1.matching_rule = none
      ∧ (exC3blocker.should_block "https://doubleclick.net/x" "https://a.com"
        "script").2.stats.total_checked = exC3blocker.stats.total_checked + 1
      ∧ (exC3blocker.should_block "https://doubleclick.net/x" "https://a.com"
        "script").2.stats.total_blocked = exC3blocker.stats.total_blocked
      ∧ (exC3blocker.should_block "https://doubleclick.net/x" "https://a.com"
        "script").2.stats.bytes_saved = exC3blocker.stats.bytes_saved) :=
  ⟨c3_amended.1 ContentBlocker.new "https://doubleclick.net/x" "https://a.com" "script"
      "doubleclick.net" rfl rfl (by decide),
   c3_amended.2 exC3blocker "https://doubleclick.net/x" "https://a.com" "script" rfl⟩

/-! ### Claim C8 -/

/-- The claim as stated: `suspend_oldest_inactive n` suspends exactly
the first `n` of the candidates selected by the sweep's eligibility
filter (threshold ignored, pinned tabs excluded unless
`suspend_pinned`), ranked by ascending `last_active`. -/
def C8Claim : Prop :=
  ∀ (m : TabManager) (n nowEpoch : Nat) (id : ViewId),
    id ∈ (((sortByKeyAsc (specOldestCandidates m)).take n).map Prod.fst) →
    ∃ tab', tabsGet (m.suspend_oldest_inactive n eOK nowEpoch).tabs id = some tab' ∧
      tab'.state = TabState.Suspended

/-- C8 fails on the code: the candidate filter in
`suspend_oldest_inactive` does not exclude pinned tabs, so a pinned
background tab consumes one of the `n` slots.  With background tabs
1 (pinned, T1), 2 (T2), 3 (T3), the spec's filter ranks tabs 2 and 3
first, so tab 3 should be suspended by `suspend_oldest_inactive 2`;
the code takes tabs 1 and 2, `suspend_tab` skips the pinned tab 1, and
tab 3 stays `Background`. -/
theorem c8_counterexample : ¬ C8Claim := by
  intro h
  obtain ⟨tab', hget, hst⟩ := h exC8pin 2 100 3 (by decide)
  have h3 : tabsGet (exC8pin.suspend_oldest_inactive 2 eOK 100).tabs 3 =
      some (exBg 3 30 false) := by decide
  rw [h3] at hget
  cases hget
  exact absurd hst (by decide)

/-- C8 (amended): the candidate filter is only "state = Background and
not the active tab"; candidates are ranked by ascending `last_active`
and the first `n` are passed to `suspend_tab`, which skips
pinned-exempt tabs (they still consume slots).  Tabs outside the first
`n` are untouched, an eligible non-pinned tab among the first `n` is
suspended, and over three eligible background tabs T1 < T2 < T3,
`suspend_oldest_inactive 2` suspends exactly T1 and T2. -/
theorem c8_amended :
    (∀ (m : TabManager) (n : Nat) (e : EngineOracle) (nowEpoch : Nat) (id : ViewId),
      id ∉ (((sortByKeyAsc m.oldestCandidates).take n).map Prod.fst) →
      tabsGet (m.suspend_oldest_inactive n e nowEpoch).tabs id = tabsGet m.tabs id)
    ∧ (∀ (m : TabManager) (n nowEpoch : Nat) (id : ViewId) (tab : Tab),
      id ∈ (((sortByKeyAsc m.oldestCandidates).take n).map Prod.fst) →
      tabsGet m.tabs id = some tab → tab.state = TabState.Background →
      m.active_tab ≠ some id →
      ¬(tab.pinned = true ∧ m.suspension_config.suspend_pinned = false) →
      ∃ tab', tabsGet (m.suspend_oldest_inactive n eOK nowEpoch).tabs id = some tab' ∧
        tab'.state = TabState.Suspended)
    ∧ ((tabsGet (exC8m.suspend_oldest_inactive 2 eOK 100).tabs 1).map Tab.state =
        some TabState.Suspended
      ∧ (tabsGet (exC8m.suspend_oldest_inactive 2 eOK 100).tabs 2).map Tab.state =
        some TabState.Suspended
      ∧ (tabsGet (exC8m.suspend_oldest_inactive 2 eOK 100).tabs 3).map Tab.state =
        some TabState.Background
      ∧ (tabsGet (exC8pin.suspend_oldest_inactive 2 eOK 100).tabs 1).map Tab.state =
        some TabState.Background
      ∧ (tabsGet (exC8pin.suspend_oldest_inactive 2 eOK 100).tabs 2).map Tab.state =
        some TabState.Suspended
      ∧ (tabsGet (exC8pin.suspend_oldest_inactive 2 eOK 100).tabs 3).map Tab.state =
        some TabState.Background) := by
  refine ⟨?_, ?_, rfl, rfl, rfl, rfl, rfl, rfl⟩
  · intro m n e nowEpoch id h
    unfold TabManager.suspend_oldest_inactive
    exact suspendList_get_notmem _ m e nowEpoch h
  · intro m n nowEpoch id tab hmem hg hs ha hp
    unfold TabManager.suspend_oldest_inactive
    exact suspendList_mem_suspends _ m nowEpoch hmem hg (by simp [hs]) ha hp

/-- C8 witness: in the all-unpinned scenario the oldest candidate tab 1
is suspended by `suspend_oldest_inactive 2`. -/
theorem c8_witness :
    ∃ tab', tabsGet (exC8m.suspend_oldest_inactive 2 eOK 100).tabs 1 = some tab' ∧
      tab'.state = TabState.Suspended :=
  c8_amended.2.1 exC8m 2 100 1 (exBg 1 10 false) (by decide) rfl rfl (by decide)
    (by decide)

/-! ### Claim C9 -/

/-- C9: pressure classification is a pure function of the
available-bytes sample and the two thresholds, Critical checked first;
with the default thresholds (256 MB critical, 512 MB low), 100 MB is
Critical, 400 MB is Low, 600 MB is Normal. -/
theorem c9_confirmed :
    (∀ (a : Nat) (c : MemoryMonitorConfig), a < c.critical_threshold_bytes →
      assess_memory_pressure a c = .Critical)
    ∧ (∀ (a : Nat) (c : MemoryMonitorConfig), ¬a < c.critical_threshold_bytes →
      a < c.low_threshold_bytes → assess_memory_pressure a c = .Low)
    ∧ (∀ (a : Nat) (c : MemoryMonitorConfig), ¬a < c.critical_threshold_bytes →
      ¬a < c.low_threshold_bytes → assess_memory_pressure a c = .Normal)
    ∧ assess_memory_pressure (100 * 1024 * 1024) MemoryMonitorConfig.defaultConfig
        = .Critical
    ∧ assess_memory_pressure (400 * 1024 * 1024) MemoryMonitorConfig.defaultConfig = .Low
    ∧ assess_memory_pressure (600 * 1024 * 1024) MemoryMonitorConfig.defaultConfig
        = .Normal := by
  refine ⟨?_, ?_, ?_, by decide, by decide, by decide⟩
  · intro a c h
    unfold assess_memory_pressure
    rw [if_pos h]
  · intro a c h1 h2
    unfold assess_memory_pressure
    rw [if_neg h1, if_pos h2]
  · intro a c h1 h2
    unfold assess_memory_pressure
    rw [if_neg h1, if_neg h2]

/-- C9 witness: an all-zero sample classifies as Critical under the
default thresholds. -/
theorem c9_witness : assess_memory_pressure 0 MemoryMonitorConfig.defaultConfig
    = .Critical :=
  c9_confirmed.1 0 MemoryMonitorConfig.defaultConfig (by decide)

/-! ### Claim C10 -/

/-- C10: `switch_to_tab` on an id absent from the manager returns `Ok`
(never `ViewNotFound`), sets the active pointer to the nonexistent id
(so `active_tab_id` is `Some id` while the lookup accessors return
`None`), and still backgrounds the previously active tab. -/
theorem c10_confirmed : ∀ (m : TabManager) (id : ViewId) (e : EngineOracle) (now : Nat),
    tabsGet m.tabs id = none →
    (m.switch_to_tab id e now).2 = .ok ()
    ∧ (m.switch_to_tab id e now).1.active_tab_id = some id
    ∧ (m.switch_to_tab id e now).1.get_tab id = none
    ∧ (m.switch_to_tab id e now).1.active_tab_lookup = none
    ∧ (∀ (cur : ViewId) (tab : Tab), m.active_tab = some cur →
        tabsGet m.tabs cur = some tab → tab.state = TabState.Active →
        tabsGet (m.switch_to_tab id e now).1.tabs cur =
          some { tab with state := TabState.Background }) := by
  intro m id e now hg
  have hgb : tabsGet (m.backgroundCurrent).tabs id = none := by
    unfold TabManager.backgroundCurrent
    cases m.active_tab with
    | none => exact hg
    | some cur => exact tabsGet_tabsModify_none _ _ _ hg
  have hri : (m.backgroundCurrent).resumeIfSuspended id e = (m.backgroundCurrent, .ok ()) := by
    unfold TabManager.resumeIfSuspended
    rw [hgb]
  have hsw : m.switch_to_tab id e now =
      ({ { m.backgroundCurrent with tabs := (tabsModify (m.backgroundCurrent).tabs id
            (fun t => t.mark_active now)) } with active_tab := some id }, .ok ()) := by
    unfold TabManager.switch_to_tab
    rw [hri]
  have hgm : tabsGet (tabsModify (m.backgroundCurrent).tabs id
      (fun t => t.mark_active now)) id = none := by
    rw [tabsGet_tabsModify_self, hgb]
    rfl
  rw [hsw]
  refine ⟨rfl, rfl, hgm, ?_, ?_⟩
  · show Option.bind (some id) (fun x => tabsGet (tabsModify (m.backgroundCurrent).tabs id
        (fun t => t.mark_active now)) x) = none
    exact hgm
  · intro cur tab hcur htab hact
    have hcne : cur ≠ id := by
      intro hh
      rw [hh, hg] at htab
      exact Option.noConfusion htab
    show tabsGet (tabsModify (m.backgroundCurrent).tabs id (fun t => t.mark_active now))
      cur = some { tab with state := TabState.Background }
    rw [tabsGet_tabsModify_ne _ _ hcne]
    unfold TabManager.backgroundCurrent
    rw [hcur]
    show tabsGet (tabsModify m.tabs cur Tab.mark_background) cur = _
    rw [tabsGet_tabsModify_self, htab]
    show some (Tab.mark_background tab) = some { tab with state := TabState.Background }
    unfold Tab.mark_background
    rw [if_pos hact]

/-- C10 witness: switching `mOne` to the absent id 99 returns `Ok` and
makes `active_tab_id` report the nonexistent id. -/
theorem c10_witness : (mOne.switch_to_tab 99 eOK 7).2 = .ok ()
    ∧ (mOne.switch_to_tab 99 eOK 7).1.active_tab_id = some 99 :=
  ⟨(c10_confirmed mOne 99 eOK 7 rfl).1, (c10_confirmed mOne 99 eOK 7 rfl).2.1⟩

end Asteroid
